import Mathlib

/-!
Verification of the wisent HTTP test/benchmark harness.

The development shallowly embeds the core of the repository:

* the runner entry points `Test`, `Benchmark` and `BenchmarkParallel`
  (wisent.go), modelled as deterministic functions from a configuration
  and an environment oracle (per-case send outcomes and assertion
  behaviours) to a trace of events plus an exit status;
* the retry wrapper `SimpleRetry` and the readiness probe
  `HealthCheckReadinessProbe` (utils.go);
* the constructor `New` with its option functions and the default
  HTTP client (wisent.go, utils.go).

Go semantics conventions used by the embedding:

* a deferred action runs when the goroutine of the enclosing function
  unwinds, whether by a normal return, by a panic in that same
  goroutine, or by runtime.Goexit (raised by Fatalf inside an
  assertion callback);
* Fatalf inside a subtest started by t.Run terminates only that
  subtest, so the loop in `Test` continues with the next case, while
  Fatalf in `Benchmark` unwinds the whole benchmark function (its
  deferred teardown still runs);
* a panic inside a case or iteration body stops the run, and no later
  case or iteration executes; in `Benchmark` the panicking statement
  runs on the benchmark goroutine itself, so the deferred teardown
  still runs while unwinding, but in `Test` and `BenchmarkParallel`
  the body runs on a child goroutine (the t.Run subtest or the
  RunParallel worker): the testing framework re-raises the panic there
  and the process aborts before the deferred cancel/shutdown of the
  blocked parent frame can run, so panicked runs of `Test` and
  `BenchmarkParallel` have no teardown events;
* calling resp.Body.Close() when the send returned a nil response is a
  nil-pointer dereference, i.e. a panic.

Errors, responses, loggers, start functions and wrappers carry no
observable structure that the claims depend on, so they are represented
by opaque numeric identifiers.
-/

namespace Wisent

/-- Outcome of one send of a request, as seen by the runner: whether the
returned response pointer is non-nil, and the returned error value
(`none` means a nil error). -/
structure SendRes where
  respNonNil : Bool
  err : Option Nat
deriving DecidableEq

/-- Behaviour of an AssertResponse callback: it can return normally,
abort the current test goroutine via Fatalf (runtime.Goexit), or panic. -/
inductive AssertB
  | returns
  | aborts
  | panics
deriving DecidableEq

/-- Observable events of a runner execution, in order of occurrence.
Indices identify the case (in `Test`) or the iteration (in the
benchmarks; `BenchmarkParallel` uses `Nat.pair worker iteration`). -/
inductive Ev
  | start
  | probe (result : Option Nat)
  | resetTimer
  | reqF (i : Nat)
  | pre (i : Nat)
  | send (i : Nat) (viaWrapper : Bool)
  | post (i : Nat)
  | assert (i : Nat)
  | close (i : Nat)
  | cancel
  | shutdown
deriving DecidableEq

/-- Events produced inside the body of a single case or iteration
(as opposed to lifecycle events of the surrounding runner). -/
def Ev.isCaseEv : Ev → Bool
  | .reqF _ => true
  | .pre _ => true
  | .send _ _ => true
  | .post _ => true
  | .assert _ => true
  | .close _ => true
  | _ => false

/-- Environment data of a single test case: presence of the optional
hooks, the outcome the configured send path produces for this case, and
the behaviour of the assertion callback. -/
structure CaseSpec where
  hasPre : Bool
  hasPost : Bool
  sendRes : SendRes
  assertB : AssertB
deriving DecidableEq

/-- How the body of one case or iteration ends. -/
inductive CaseOut
  | done
  | aborted
  | panicked
deriving DecidableEq

/-- Events of the case body up to and including the assertion callback:
optional PreRequest, the send (via the RequestWrapper when configured,
else via HttpClient.Do), optional PostRequest, then AssertResponse.
Mirrors wisent.go lines 150-167. -/
def caseBlockCore (wrap : Bool) (i : Nat) (c : CaseSpec) : List Ev :=
  (if c.hasPre then [Ev.pre i] else []) ++ [Ev.send i wrap]
    ++ (if c.hasPost then [Ev.post i] else []) ++ [Ev.assert i]

/-- Whether the body reaches and performs resp.Body.Close(): only when
the assertion callback returns normally (no Fatalf, no panic) and the
response pointer is non-nil. -/
def closesBody (c : CaseSpec) : Bool :=
  match c.assertB with
  | .returns => c.sendRes.respNonNil
  | _ => false

/-- How the body of a case with this data ends: an aborting assertion
yields Goexit, a panicking assertion panics, and a returning assertion
reaches resp.Body.Close(), which completes for a non-nil response and
panics (nil dereference) for a nil one. -/
def caseOutcome (c : CaseSpec) : CaseOut :=
  match c.assertB with
  | .aborts => CaseOut.aborted
  | .panics => CaseOut.panicked
  | .returns => if c.sendRes.respNonNil then CaseOut.done else CaseOut.panicked

/-- One case body as executed by `Test` (and, minus the factory call, by
the benchmark loops): hooks, send, assertion, then the unconditional
resp.Body.Close(). If the assertion aborts or panics the close is never
reached; if the assertion returns and the response is nil, the close
dereferences the nil pointer, i.e. panics. -/
def runCase (wrap : Bool) (i : Nat) (c : CaseSpec) : List Ev × CaseOut :=
  (caseBlockCore wrap i c ++ (if closesBody c then [Ev.close i] else []),
   caseOutcome c)

/-- Whether the body of a case with this data terminates without a
panic (it either completes or is contained by the subtest as a Fatalf
abort). -/
def completesB (c : CaseSpec) : Bool :=
  match c.assertB with
  | .aborts => true
  | .panics => false
  | .returns => c.sendRes.respNonNil

/-- The sequential loop of `Test` over the case list (wisent.go lines
146-172). Each case runs inside t.Run, which contains a Fatalf abort,
so the loop continues after an aborted case; a panic propagates and
stops the loop. -/
def runCases (wrap : Bool) : Nat → List CaseSpec → List Ev × Bool
  | _, [] => ([], false)
  | i, c :: rest =>
    if (runCase wrap i c).2 = CaseOut.panicked then ((runCase wrap i c).1, true)
    else ((runCase wrap i c).1 ++ (runCases wrap (i + 1) rest).1,
          (runCases wrap (i + 1) rest).2)

/-- The concatenation of the per-case event blocks for cases k, k+1,
..., in input order; this is what the `Test` loop produces when no case
panics. -/
def blockList (wrap : Bool) : Nat → List CaseSpec → List Ev
  | _, [] => []
  | i, c :: rest => (runCase wrap i c).1 ++ blockList wrap (i + 1) rest

/-- Configuration of a runner invocation: whether a start function is
set, whether a readiness probe is set (and the error value it would
return, which line 143 of wisent.go discards), and whether a request
wrapper is set. -/
structure Cfg where
  hasStart : Bool
  probe : Option (Option Nat)
  hasWrapper : Bool
deriving DecidableEq

/-- Lifecycle preamble common to the three runners: the start function
call when configured, then the readiness probe call when configured.
The probe event records the value the probe returned; the runner does
not consume it. -/
def preamble (w : Cfg) : List Ev :=
  (if w.hasStart then [Ev.start] else [])
    ++ (match w.probe with
        | none => []
        | some r => [Ev.probe r])

/-- Deferred lifecycle teardown: with a start function the deferred
closure calls cancel() and then the shutdown function; without one only
cancel() is deferred. It runs whenever the runner goroutine itself
unwinds (normal return, Goexit, or a panic on that same goroutine); it
does not run when a child goroutine panics and aborts the process. -/
def teardown (w : Cfg) : List Ev :=
  if w.hasStart then [Ev.cancel, Ev.shutdown] else [Ev.cancel]

/-- How a runner invocation ends: a normal return carrying the Go error
value, a runtime.Goexit raised by Fatalf, or a propagating panic. -/
inductive Exit
  | ret (err : Option Nat)
  | goexit
  | panicked
deriving DecidableEq

/-- A full runner execution: its event trace and its exit status. -/
structure RunOut where
  evs : List Ev
  exit : Exit
deriving DecidableEq

/-- Model of Wisent.Test (wisent.go lines 125-176): lifecycle preamble,
the sequential case loop, then the deferred teardown; the function body
ends in a literal return nil. When a case panics, the panic happens on
the t.Run subtest goroutine and the process aborts, so the deferred
cancel/shutdown of the blocked Test frame never executes: panicked runs
carry no teardown events. -/
def Test (w : Cfg) (cases : List CaseSpec) : RunOut :=
  { evs := preamble w ++ (runCases w.hasWrapper 0 cases).1
      ++ (if (runCases w.hasWrapper 0 cases).2 then [] else teardown w)
    exit := if (runCases w.hasWrapper 0 cases).2 then Exit.panicked else Exit.ret none }

/-- Environment data of a sequential benchmark: hook presence is fixed
by the Benchmark struct, while the send outcome and assertion behaviour
may differ per iteration (given by the oracle `behav`). -/
structure BmSpec where
  hasPre : Bool
  hasPost : Bool
  behav : Nat → SendRes × AssertB

/-- The case data of iteration `i` of a sequential benchmark. -/
def iterSpec (bm : BmSpec) (i : Nat) : CaseSpec :=
  { hasPre := bm.hasPre
    hasPost := bm.hasPost
    sendRes := (bm.behav i).1
    assertB := (bm.behav i).2 }

/-- One benchmark iteration body (wisent.go lines 207-232): the
RequestF factory call, then the same hook/send/assert/close body as a
test case. -/
def runIter (wrap : Bool) (i : Nat) (c : CaseSpec) : List Ev × CaseOut :=
  (Ev.reqF i :: (runCase wrap i c).1, (runCase wrap i c).2)

/-- How the benchmark iteration loop ends: all iterations done, stopped
by a Fatalf abort (which unwinds the whole benchmark function), or
stopped by a panic. -/
inductive LoopEnd
  | finished
  | aborted
  | panicked
deriving DecidableEq

/-- The iteration loop of `Benchmark`: runs iterations i, i+1, ... for
the given remaining count; there is no other bound. An aborting
assertion (Fatalf, hence Goexit) or a panic stops the loop. -/
def bmLoop (wrap : Bool) (bm : BmSpec) (i : Nat) : Nat → List Ev × LoopEnd
  | 0 => ([], LoopEnd.finished)
  | n + 1 =>
    if (runIter wrap i (iterSpec bm i)).2 = CaseOut.done then
      ((runIter wrap i (iterSpec bm i)).1 ++ (bmLoop wrap bm (i + 1) n).1,
       (bmLoop wrap bm (i + 1) n).2)
    else if (runIter wrap i (iterSpec bm i)).2 = CaseOut.aborted then
      ((runIter wrap i (iterSpec bm i)).1, LoopEnd.aborted)
    else ((runIter wrap i (iterSpec bm i)).1, LoopEnd.panicked)

/-- The concatenation of the per-iteration event blocks for iterations
i, ..., i+n-1; this is what the `Benchmark` loop produces when every
iteration completes. -/
def bmBlocks (wrap : Bool) (bm : BmSpec) (i : Nat) : Nat → List Ev
  | 0 => []
  | n + 1 => (runIter wrap i (iterSpec bm i)).1 ++ bmBlocks wrap bm (i + 1) n

/-- Model of Wisent.Benchmark (wisent.go lines 182-237): preamble,
b.ResetTimer(), the loop for i := 0; i < b.N; i++, then the deferred
teardown; the body ends in a literal return nil, which is reached only
when the loop finishes. The loop body runs inline on the benchmark
goroutine, so the deferred teardown also runs when an iteration aborts
via Fatalf (Goexit) or panics. -/
def Benchmark (w : Cfg) (bm : BmSpec) (bN : Nat) : RunOut :=
  { evs := preamble w ++ [Ev.resetTimer] ++ (bmLoop w.hasWrapper bm 0 bN).1 ++ teardown w
    exit :=
      match (bmLoop w.hasWrapper bm 0 bN).2 with
      | LoopEnd.finished => Exit.ret none
      | LoopEnd.aborted => Exit.goexit
      | LoopEnd.panicked => Exit.panicked }

/-- Environment data of a parallel benchmark: the oracle takes the
worker index and the iteration index within that worker. -/
structure BmPar where
  hasPre : Bool
  hasPost : Bool
  behav : Nat → Nat → SendRes × AssertB

/-- The case data of iteration `i` of worker `wkr`. -/
def parIterSpec (bm : BmPar) (wkr i : Nat) : CaseSpec :=
  { hasPre := bm.hasPre
    hasPost := bm.hasPost
    sendRes := (bm.behav wkr i).1
    assertB := (bm.behav wkr i).2 }

/-- The pb.Next() loop of one RunParallel worker goroutine. A Fatalf
abort terminates only this worker goroutine; a panic propagates. Event
indices are `Nat.pair wkr i` so that iterations of distinct workers
stay distinct in the linearised trace. -/
def workerLoop (wrap : Bool) (bm : BmPar) (wkr : Nat) (i : Nat) :
    Nat → List Ev × LoopEnd
  | 0 => ([], LoopEnd.finished)
  | n + 1 =>
    if (runIter wrap (Nat.pair wkr i) (parIterSpec bm wkr i)).2 = CaseOut.done then
      ((runIter wrap (Nat.pair wkr i) (parIterSpec bm wkr i)).1 ++
        (workerLoop wrap bm wkr (i + 1) n).1,
       (workerLoop wrap bm wkr (i + 1) n).2)
    else if (runIter wrap (Nat.pair wkr i) (parIterSpec bm wkr i)).2 = CaseOut.aborted then
      ((runIter wrap (Nat.pair wkr i) (parIterSpec bm wkr i)).1, LoopEnd.aborted)
    else ((runIter wrap (Nat.pair wkr i) (parIterSpec bm wkr i)).1, LoopEnd.panicked)

/-- b.RunParallel with the framework-chosen distribution `workers`
(iteration count per worker), linearised worker by worker. A worker
that aborts does not affect the other workers or the surrounding
function; a worker panic propagates. -/
def runWorkers (wrap : Bool) (bm : BmPar) : Nat → List Nat → List Ev × Bool
  | _, [] => ([], false)
  | wkr, n :: rest =>
    if (workerLoop wrap bm wkr 0 n).2 = LoopEnd.panicked then
      ((workerLoop wrap bm wkr 0 n).1, true)
    else ((workerLoop wrap bm wkr 0 n).1 ++ (runWorkers wrap bm (wkr + 1) rest).1,
          (runWorkers wrap bm (wkr + 1) rest).2)

/-- Model of Wisent.BenchmarkParallel (wisent.go lines 244-300):
preamble, b.ResetTimer(), b.RunParallel over the workers, then the
deferred teardown and a literal return nil. When a worker panics, the
panic happens on the RunParallel worker goroutine and the process
aborts, so the deferred cancel/shutdown of the blocked parent frame
never executes: panicked runs carry no teardown events. -/
def BenchmarkParallel (w : Cfg) (bm : BmPar) (workers : List Nat) : RunOut :=
  { evs := preamble w ++ [Ev.resetTimer] ++ (runWorkers w.hasWrapper bm 0 workers).1
      ++ (if (runWorkers w.hasWrapper bm 0 workers).2 then [] else teardown w)
    exit := if (runWorkers w.hasWrapper bm 0 workers).2 then Exit.panicked
      else Exit.ret none }

/-! ## SimpleRetry (utils.go lines 96-109) -/

/-- The retry loop of SimpleRetry over the literal attempt indices of
the Go statement for i := range 5. State: the named return value err
(initially nil) and the list of sleep durations performed so far. On a
successful send the response is returned immediately with a nil error;
on a failed attempt i the wrapper sleeps i * baseSleep and continues;
after the last attempt it returns (nil, err) with the last error. -/
def simpleRetryAux (baseSleep : Nat) (doSend : Nat → Except Nat Nat)
    (lastErr : Option Nat) (sleeps : List Nat) :
    List Nat → Option Nat × Option Nat × List Nat
  | [] => (none, lastErr, sleeps)
  | i :: rest =>
    match doSend i with
    | .ok r => (some r, none, sleeps)
    | .error e => simpleRetryAux baseSleep doSend (some e) (sleeps ++ [i * baseSleep]) rest

/-- Model of SimpleRetry: `doSend` gives the outcome of attempt number
j (j = 0, 1, 2, 3, 4). The result is (response, error, sleeps
performed). The `maxAttempts` parameter is accepted but, exactly as in
the source, never read: the loop bound is the literal 5. -/
def SimpleRetry (maxAttempts : Nat) (baseSleep : Nat)
    (doSend : Nat → Except Nat Nat) : Option Nat × Option Nat × List Nat :=
  simpleRetryAux baseSleep doSend none [] [0, 1, 2, 3, 4]

/-! ## HealthCheckReadinessProbe (utils.go lines 43-88) -/

/-- What attempt number n of the probe observes: request construction
failed, the send returned an error, or a response with the given status
code arrived. -/
inductive AttemptRes
  | reqErr (e : Nat)
  | sendErr (e : Nat)
  | status (code : Nat)
deriving DecidableEq

/-- Environment of a probe run: the outcome of each attempt, whether
ctx.Done() is ready at the select of attempt n, and the value of
time.Since(startTime) at the checks of attempt n. -/
structure ProbeWorld where
  attempt : Nat → AttemptRes
  cancelled : Nat → Bool
  elapsed : Nat → Nat

/-- Probe results: success is `none`; errors are the wrapped request
construction error, ctx.Err() after cancellation, or
ErrHealthCheckTimeout. -/
inductive ProbeErr
  | creatingRequest (e : Nat)
  | ctxCancelled
  | healthCheckTimeout
deriving DecidableEq

/-- Events of a probe run, per attempt: request construction, the send,
the body close, the status comparison, and the sleep before a retry. -/
inductive ProbeEv
  | mkReq (n : Nat)
  | doSend (n : Nat)
  | closeBody (n : Nat)
  | checkStatus (n : Nat)
  | slept (n : Nat)
deriving DecidableEq

/-- The unbounded for-loop of the probe, with explicit fuel; a result of
`none` means the loop is still running after `fuel` iterations. Each
iteration builds a fresh request; on a send error it selects on
ctx.Done() first, then compares the elapsed time with the timeout, then
sleeps and retries; on a response it closes the body, succeeds iff the
status is 200, and otherwise performs the same cancellation, timeout
and sleep sequence before retrying. -/
def probeLoop (w : ProbeWorld) (timeout slp : Nat) :
    Nat → Nat → List ProbeEv × Option (Option ProbeErr)
  | 0, _ => ([], none)
  | fuel + 1, n =>
    match w.attempt n with
    | .reqErr e => ([ProbeEv.mkReq n], some (some (ProbeErr.creatingRequest e)))
    | .sendErr _ =>
      if w.cancelled n then
        ([ProbeEv.mkReq n, ProbeEv.doSend n], some (some ProbeErr.ctxCancelled))
      else if timeout ≤ w.elapsed n then
        ([ProbeEv.mkReq n, ProbeEv.doSend n], some (some ProbeErr.healthCheckTimeout))
      else
        (ProbeEv.mkReq n :: ProbeEv.doSend n :: ProbeEv.slept n ::
           (probeLoop w timeout slp fuel (n + 1)).1,
         (probeLoop w timeout slp fuel (n + 1)).2)
    | .status c =>
      if c = 200 then
        ([ProbeEv.mkReq n, ProbeEv.doSend n, ProbeEv.closeBody n,
          ProbeEv.checkStatus n], some none)
      else if w.cancelled n then
        ([ProbeEv.mkReq n, ProbeEv.doSend n, ProbeEv.closeBody n,
          ProbeEv.checkStatus n], some (some ProbeErr.ctxCancelled))
      else if timeout ≤ w.elapsed n then
        ([ProbeEv.mkReq n, ProbeEv.doSend n, ProbeEv.closeBody n,
          ProbeEv.checkStatus n], some (some ProbeErr.healthCheckTimeout))
      else
        (ProbeEv.mkReq n :: ProbeEv.doSend n :: ProbeEv.closeBody n ::
           ProbeEv.checkStatus n :: ProbeEv.slept n ::
           (probeLoop w timeout slp fuel (n + 1)).1,
         (probeLoop w timeout slp fuel (n + 1)).2)

/-! ## New, options and the default HTTP client (wisent.go lines 50-110,
utils.go lines 17-32) -/

/-- The timeout and pooling settings of the client built by
DefaultHttpClient (utils.go lines 17-32); durations in seconds. -/
structure HttpClientCfg where
  timeoutSec : Nat
  dialTimeoutSec : Nat
  keepAliveSec : Nat
  responseHeaderTimeoutSec : Nat
  expectContinueTimeoutSec : Nat
  maxIdleConns : Nat
  maxIdleConnsPerHost : Nat
  idleConnTimeoutSec : Nat
deriving DecidableEq

/-- Model of DefaultHttpClient: 3 second overall, dial, response header,
expect continue and idle connection timeouts, 10 second keep alive, and
10 idle connections overall and per host. -/
def DefaultHttpClient : HttpClientCfg :=
  { timeoutSec := 3
    dialTimeoutSec := 3
    keepAliveSec := 10
    responseHeaderTimeoutSec := 3
    expectContinueTimeoutSec := 3
    maxIdleConns := 10
    maxIdleConnsPerHost := 10
    idleConnTimeoutSec := 3 }

/-- A logger value: the default discarding logger or a caller-supplied
one (identified opaquely). -/
inductive LoggerCfg
  | discard
  | custom (id : Nat)
deriving DecidableEq

/-- The Wisent configuration struct (wisent.go lines 72-94). Start
functions, probes and wrappers are opaque identifiers; Go nil pointers
are `none`, matching the zero value of the struct literal in New. -/
structure WisentCfg where
  baseURL : String
  start : Option Nat := none
  readinessProbe : Option Nat := none
  httpClient : Option HttpClientCfg := none
  requestWrapper : Option Nat := none
  logger : Option LoggerCfg := none
deriving DecidableEq

/-- The five option constructors (wisent.go lines 52-68). -/
inductive WisentOpt
  | withStartFunc (s : Nat)
  | withReadinessProbe (p : Nat)
  | withHttpClient (c : HttpClientCfg)
  | withRequestWrapper (r : Nat)
  | withLogger (l : LoggerCfg)
deriving DecidableEq

/-- Application of one option: each setter assigns exactly its field. -/
def applyOpt (w : WisentCfg) : WisentOpt → WisentCfg
  | .withStartFunc s => { w with start := some s }
  | .withReadinessProbe p => { w with readinessProbe := some p }
  | .withHttpClient c => { w with httpClient := some c }
  | .withRequestWrapper r => { w with requestWrapper := some r }
  | .withLogger l => { w with logger := some l }

/-- Model of New (wisent.go lines 98-110): start from the struct literal
with the base URL, apply the options in order, then install the default
client and the discarding logger for fields still nil. -/
def New (baseUrl : String) (options : List WisentOpt) : WisentCfg :=
  let w := options.foldl applyOpt { baseURL := baseUrl }
  let w2 := if w.httpClient = none then { w with httpClient := some DefaultHttpClient } else w
  if w2.logger = none then { w2 with logger := some LoggerCfg.discard } else w2

/-- Recognises the option that sets the HTTP client. -/
def WisentOpt.isClientOpt : WisentOpt → Bool
  | .withHttpClient _ => true
  | _ => false

/-- Recognises the option that sets the logger. -/
def WisentOpt.isLoggerOpt : WisentOpt → Bool
  | .withLogger _ => true
  | _ => false

/-- Recognises the option that sets the start function. -/
def WisentOpt.isStartOpt : WisentOpt → Bool
  | .withStartFunc _ => true
  | _ => false

/-- Recognises the option that sets the readiness probe. -/
def WisentOpt.isProbeOpt : WisentOpt → Bool
  | .withReadinessProbe _ => true
  | _ => false

/-- Recognises the option that sets the request wrapper. -/
def WisentOpt.isWrapperOpt : WisentOpt → Bool
  | .withRequestWrapper _ => true
  | _ => false

/-- Modelled from the spec: section 4.5 describes the `Benchmark` loop
as running "an iteration-count driven by the calling framework's target
iteration count (optionally capped by a caller-supplied maximum)", and
section 3 gives the Benchmark Case an "optional iteration cap". The
resulting iteration count for target bN and optional cap. -/
def benchmarkIterCountSpec (bN : Nat) (cap : Option Nat) : Nat :=
  match cap with
  | none => bN
  | some m => min bN m

/-- Number of factory invocations recorded in a trace. -/
def countReqF (evs : List Ev) : Nat :=
  evs.countP fun e =>
    match e with
    | .reqF _ => true
    | _ => false

/-- Whether an exit status is a normal return carrying a non-nil error. -/
def returnsError (x : Exit) : Bool :=
  match x with
  | Exit.ret (some _) => true
  | _ => false

/-- A concrete probe world: a send error on attempt 0 with the context
already cancelled and the elapsed time already past the timeout. -/
def probeWitnessWorld : ProbeWorld :=
  { attempt := fun k => if k = 0 then AttemptRes.sendErr 1 else AttemptRes.status 200
    cancelled := fun _ => true
    elapsed := fun _ => 99 }

/-! ## Helper lemmas about case bodies -/

theorem mem_caseBlockCore {wrap : Bool} {i : Nat} {c : CaseSpec} {e : Ev}
    (he : e ∈ caseBlockCore wrap i c) : e.isCaseEv = true := by
  unfold caseBlockCore at he
  rcases List.mem_append.1 he with h | h
  · rcases List.mem_append.1 h with h2 | h2
    · rcases List.mem_append.1 h2 with h3 | h3
      · split at h3
        · rw [List.mem_singleton.1 h3]; rfl
        · exact absurd h3 (List.not_mem_nil e)
      · rw [List.mem_singleton.1 h3]; rfl
    · split at h2
      · rw [List.mem_singleton.1 h2]; rfl
      · exact absurd h2 (List.not_mem_nil e)
  · rw [List.mem_singleton.1 h]; rfl

theorem mem_runCase {wrap : Bool} {i : Nat} {c : CaseSpec} {e : Ev}
    (he : e ∈ (runCase wrap i c).1) : e.isCaseEv = true := by
  unfold runCase at he
  rcases List.mem_append.1 he with h | h
  · exact mem_caseBlockCore h
  · split at h
    · rw [List.mem_singleton.1 h]; rfl
    · exact absurd h (List.not_mem_nil e)

theorem mem_runIter {wrap : Bool} {i : Nat} {c : CaseSpec} {e : Ev}
    (he : e ∈ (runIter wrap i c).1) : e.isCaseEv = true := by
  unfold runIter at he
  rcases List.mem_cons.1 he with h | h
  · rw [h]; rfl
  · exact mem_runCase h

theorem mem_runCases {wrap : Bool} {cs : List CaseSpec} :
    ∀ {k : Nat} {e : Ev}, e ∈ (runCases wrap k cs).1 → e.isCaseEv = true := by
  induction cs with
  | nil => intro k e he; simp [runCases] at he
  | cons c rest ih =>
    intro k e he
    by_cases hP : (runCase wrap k c).2 = CaseOut.panicked
    · simp only [runCases, if_pos hP] at he
      exact mem_runCase he
    · simp only [runCases, if_neg hP] at he
      rcases List.mem_append.1 he with h | h
      · exact mem_runCase h
      · exact ih h

theorem mem_bmLoop {wrap : Bool} {bm : BmSpec} :
    ∀ {n i : Nat} {e : Ev}, e ∈ (bmLoop wrap bm i n).1 → e.isCaseEv = true := by
  intro n
  induction n with
  | zero => intro i e he; simp [bmLoop] at he
  | succ n ih =>
    intro i e he
    by_cases h1 : (runIter wrap i (iterSpec bm i)).2 = CaseOut.done
    · simp only [bmLoop, if_pos h1] at he
      rcases List.mem_append.1 he with h | h
      · exact mem_runIter h
      · exact ih h
    · by_cases h2 : (runIter wrap i (iterSpec bm i)).2 = CaseOut.aborted
      · simp only [bmLoop, if_neg h1, if_pos h2] at he
        exact mem_runIter he
      · simp only [bmLoop, if_neg h1, if_neg h2] at he
        exact mem_runIter he

theorem mem_workerLoop {wrap : Bool} {bm : BmPar} {wkr : Nat} :
    ∀ {n i : Nat} {e : Ev}, e ∈ (workerLoop wrap bm wkr i n).1 → e.isCaseEv = true := by
  intro n
  induction n with
  | zero => intro i e he; simp [workerLoop] at he
  | succ n ih =>
    intro i e he
    by_cases h1 : (runIter wrap (Nat.pair wkr i) (parIterSpec bm wkr i)).2 = CaseOut.done
    · simp only [workerLoop, if_pos h1] at he
      rcases List.mem_append.1 he with h | h
      · exact mem_runIter h
      · exact ih h
    · by_cases h2 : (runIter wrap (Nat.pair wkr i) (parIterSpec bm wkr i)).2 = CaseOut.aborted
      · simp only [workerLoop, if_neg h1, if_pos h2] at he
        exact mem_runIter he
      · simp only [workerLoop, if_neg h1, if_neg h2] at he
        exact mem_runIter he

theorem mem_runWorkers {wrap : Bool} {bm : BmPar} {workers : List Nat} :
    ∀ {k : Nat} {e : Ev}, e ∈ (runWorkers wrap bm k workers).1 → e.isCaseEv = true := by
  induction workers with
  | nil => intro k e he; simp [runWorkers] at he
  | cons n rest ih =>
    intro k e he
    by_cases hP : (workerLoop wrap bm k 0 n).2 = LoopEnd.panicked
    · simp only [runWorkers, if_pos hP] at he
      exact mem_workerLoop he
    · simp only [runWorkers, if_neg hP] at he
      rcases List.mem_append.1 he with h | h
      · exact mem_workerLoop h
      · exact ih h

theorem count_of_forall_caseEv {x : Ev} (hx : x.isCaseEv = false)
    {l : List Ev} (hl : ∀ e ∈ l, e.isCaseEv = true) : l.count x = 0 := by
  rw [List.count_eq_zero]
  intro hm
  rw [hl x hm] at hx
  simp at hx

/-! ## Counting lemmas for lifecycle events -/

theorem preamble_count_shutdown (w : Cfg) : (preamble w).count Ev.shutdown = 0 := by
  cases hs : w.hasStart <;> cases hp : w.probe <;> simp [preamble, hs, hp]

theorem preamble_count_cancel (w : Cfg) : (preamble w).count Ev.cancel = 0 := by
  cases hs : w.hasStart <;> cases hp : w.probe <;> simp [preamble, hs, hp]

theorem preamble_count_assert (w : Cfg) (j : Nat) :
    (preamble w).count (Ev.assert j) = 0 := by
  cases hs : w.hasStart <;> cases hp : w.probe <;> simp [preamble, hs, hp]

theorem teardown_count_shutdown (w : Cfg) :
    (teardown w).count Ev.shutdown = if w.hasStart then 1 else 0 := by
  cases hs : w.hasStart <;> simp [teardown, hs]

theorem teardown_count_cancel (w : Cfg) : (teardown w).count Ev.cancel = 1 := by
  cases hs : w.hasStart <;> simp [teardown, hs]

theorem teardown_count_assert (w : Cfg) (j : Nat) :
    (teardown w).count (Ev.assert j) = 0 := by
  cases hs : w.hasStart <;> simp [teardown, hs]

theorem teardown_count_close (w : Cfg) (j : Nat) :
    (teardown w).count (Ev.close j) = 0 := by
  cases hs : w.hasStart <;> simp [teardown, hs]

theorem preamble_count_close (w : Cfg) (j : Nat) :
    (preamble w).count (Ev.close j) = 0 := by
  cases hs : w.hasStart <;> cases hp : w.probe <;> simp [preamble, hs, hp]

/-! ## Counting lemmas for case events -/

theorem runCase_count_assert (wrap : Bool) (k j : Nat) (c : CaseSpec) :
    ((runCase wrap k c).1).count (Ev.assert j) = if j = k then 1 else 0 := by
  obtain ⟨hp, hq, ⟨rn, er⟩, ab⟩ := c
  cases ab <;> cases rn <;> cases hp <;> cases hq <;>
    simp [runCase, caseBlockCore, closesBody, List.count_append, List.count_cons] <;>
    split_ifs <;> simp_all

theorem runCase_count_close (wrap : Bool) (k j : Nat) (c : CaseSpec) :
    ((runCase wrap k c).1).count (Ev.close j) =
      if j = k ∧ closesBody c = true then 1 else 0 := by
  obtain ⟨hp, hq, ⟨rn, er⟩, ab⟩ := c
  cases ab <;> cases rn <;> cases hp <;> cases hq <;>
    simp [runCase, caseBlockCore, closesBody, List.count_append, List.count_cons] <;>
    split_ifs <;> simp_all

theorem runCase_count_send (wrap : Bool) (k j : Nat) (b : Bool) (c : CaseSpec) :
    ((runCase wrap k c).1).count (Ev.send j b) =
      if j = k ∧ b = wrap then 1 else 0 := by
  obtain ⟨hp, hq, ⟨rn, er⟩, ab⟩ := c
  cases ab <;> cases rn <;> cases hp <;> cases hq <;>
    simp [runCase, caseBlockCore, closesBody, List.count_append, List.count_cons] <;>
    split_ifs <;> simp_all

theorem runCase_count_reqF (wrap : Bool) (k j : Nat) (c : CaseSpec) :
    ((runCase wrap k c).1).count (Ev.reqF j) = 0 := by
  obtain ⟨hp, hq, ⟨rn, er⟩, ab⟩ := c
  cases ab <;> cases rn <;> cases hp <;> cases hq <;>
    simp [runCase, caseBlockCore, closesBody, List.count_append, List.count_cons]

theorem runIter_count_reqF (wrap : Bool) (k j : Nat) (c : CaseSpec) :
    ((runIter wrap k c).1).count (Ev.reqF j) = if j = k then 1 else 0 := by
  rw [runIter]
  simp [List.count_cons, runCase_count_reqF]
  split_ifs <;> simp_all

theorem runIter_count_send (wrap : Bool) (k j : Nat) (b : Bool) (c : CaseSpec) :
    ((runIter wrap k c).1).count (Ev.send j b) =
      if j = k ∧ b = wrap then 1 else 0 := by
  rw [runIter]
  simp [List.count_cons, runCase_count_send]

theorem runIter_count_close (wrap : Bool) (k j : Nat) (c : CaseSpec) :
    ((runIter wrap k c).1).count (Ev.close j) =
      if j = k ∧ closesBody c = true then 1 else 0 := by
  rw [runIter]
  simp [List.count_cons, runCase_count_close]

theorem runIter_count_assert (wrap : Bool) (k j : Nat) (c : CaseSpec) :
    ((runIter wrap k c).1).count (Ev.assert j) = if j = k then 1 else 0 := by
  rw [runIter]
  simp [List.count_cons, runCase_count_assert]

/-! ## Loop structure lemmas -/

theorem caseOutcome_eq_panicked_iff (c : CaseSpec) :
    caseOutcome c = CaseOut.panicked ↔ completesB c = false := by
  obtain ⟨hp, hq, ⟨rn, er⟩, ab⟩ := c
  cases ab <;> cases rn <;> simp [caseOutcome, completesB]

theorem caseOutcome_eq_done_iff (c : CaseSpec) :
    caseOutcome c = CaseOut.done ↔ closesBody c = true := by
  obtain ⟨hp, hq, ⟨rn, er⟩, ab⟩ := c
  cases ab <;> cases rn <;> simp [caseOutcome, closesBody]

theorem caseOutcome_eq_aborted_iff (c : CaseSpec) :
    caseOutcome c = CaseOut.aborted ↔ c.assertB = AssertB.aborts := by
  obtain ⟨hp, hq, ⟨rn, er⟩, ab⟩ := c
  cases ab <;> cases rn <;> simp [caseOutcome]

theorem runCases_eq_blockList (wrap : Bool) {cs : List CaseSpec}
    (h : ∀ c ∈ cs, completesB c = true) :
    ∀ k, runCases wrap k cs = (blockList wrap k cs, false) := by
  induction cs with
  | nil => intro k; rfl
  | cons c rest ih =>
    intro k
    have hc : completesB c = true := h c (List.mem_cons_self c rest)
    have hout : ¬((runCase wrap k c).2 = CaseOut.panicked) := by
      rw [runCase]
      rw [caseOutcome_eq_panicked_iff]
      simp [hc]
    rw [runCases, if_neg hout, ih (fun d hd => h d (List.mem_cons_of_mem c hd)) (k + 1)]
    rfl

theorem bmLoop_eq_bmBlocks (wrap : Bool) (bm : BmSpec) :
    ∀ (n i : Nat), (∀ j, i ≤ j → j < i + n → closesBody (iterSpec bm j) = true) →
      bmLoop wrap bm i n = (bmBlocks wrap bm i n, LoopEnd.finished) := by
  intro n
  induction n with
  | zero => intro i _; rfl
  | succ n ih =>
    intro i h
    have hdone : (runIter wrap i (iterSpec bm i)).2 = CaseOut.done := by
      show caseOutcome (iterSpec bm i) = CaseOut.done
      rw [caseOutcome_eq_done_iff]
      exact h i (Nat.le_refl i) (by omega)
    rw [bmLoop, if_pos hdone, ih (i + 1) (fun j h1 h2 => h j (by omega) (by omega))]
    rfl

theorem workerLoop_eq_blocks (wrap : Bool) (bm : BmPar) (wkr : Nat) :
    ∀ (n i : Nat), (∀ j, closesBody (parIterSpec bm wkr j) = true) →
      (workerLoop wrap bm wkr i n).2 = LoopEnd.finished := by
  intro n
  induction n with
  | zero => intro i _; rfl
  | succ n ih =>
    intro i h
    have hdone : (runIter wrap (Nat.pair wkr i) (parIterSpec bm wkr i)).2 = CaseOut.done := by
      show caseOutcome (parIterSpec bm wkr i) = CaseOut.done
      rw [caseOutcome_eq_done_iff]
      exact h i
    rw [workerLoop, if_pos hdone]
    simp [ih (i + 1) h]

/-! ## Counting lemmas for the block lists -/

theorem blockList_count_assert (wrap : Bool) (cs : List CaseSpec) :
    ∀ (k j : Nat), (blockList wrap k cs).count (Ev.assert j) =
      if k ≤ j ∧ j < k + cs.length then 1 else 0 := by
  induction cs with
  | nil =>
    intro k j
    rw [blockList]
    simp only [List.count_nil, List.length_nil]
    split_ifs <;> omega
  | cons c rest ih =>
    intro k j
    rw [blockList]
    rw [List.count_append, runCase_count_assert, ih (k + 1) j]
    simp only [List.length_cons]
    split_ifs <;> omega

theorem blockList_count_close (wrap : Bool) (cs : List CaseSpec)
    (h : ∀ c ∈ cs, closesBody c = true) :
    ∀ (k j : Nat), (blockList wrap k cs).count (Ev.close j) =
      if k ≤ j ∧ j < k + cs.length then 1 else 0 := by
  induction cs with
  | nil =>
    intro k j
    rw [blockList]
    simp only [List.count_nil, List.length_nil]
    split_ifs <;> omega
  | cons c rest ih =>
    intro k j
    rw [blockList]
    rw [List.count_append, runCase_count_close,
      ih (fun d hd => h d (List.mem_cons_of_mem c hd)) (k + 1) j]
    have hc : closesBody c = true := h c (List.mem_cons_self c rest)
    simp only [List.length_cons, hc]
    split_ifs <;> simp_all <;> omega

theorem bmBlocks_count_reqF (wrap : Bool) (bm : BmSpec) :
    ∀ (n k j : Nat), (bmBlocks wrap bm k n).count (Ev.reqF j) =
      if k ≤ j ∧ j < k + n then 1 else 0 := by
  intro n
  induction n with
  | zero =>
    intro k j
    rw [bmBlocks]
    simp only [List.count_nil]
    split_ifs <;> omega
  | succ n ih =>
    intro k j
    rw [bmBlocks]
    rw [List.count_append, runIter_count_reqF, ih (k + 1) j]
    split_ifs <;> omega

theorem bmBlocks_count_send (wrap : Bool) (bm : BmSpec) (b : Bool) :
    ∀ (n k j : Nat), (bmBlocks wrap bm k n).count (Ev.send j b) =
      if k ≤ j ∧ j < k + n ∧ b = wrap then 1 else 0 := by
  intro n
  induction n with
  | zero =>
    intro k j
    rw [bmBlocks]
    simp only [List.count_nil]
    split_ifs with hh
    · omega
    · rfl
  | succ n ih =>
    intro k j
    rw [bmBlocks]
    rw [List.count_append, runIter_count_send, ih (k + 1) j]
    by_cases hb : b = wrap
    · simp only [hb, and_true]
      split_ifs <;> omega
    · simp only [hb, and_false]
      split_ifs <;> simp_all

theorem mem_preamble {w : Cfg} {e : Ev} (he : e ∈ preamble w) : e.isCaseEv = false := by
  cases hs : w.hasStart <;> rcases hp : w.probe with _ | r <;>
    simp [preamble, hs, hp] at he
  · rw [he]; rfl
  · rw [he]; rfl
  · rcases he with rfl | rfl <;> rfl

theorem mem_teardown {w : Cfg} {e : Ev} (he : e ∈ teardown w) : e.isCaseEv = false := by
  cases hs : w.hasStart <;> simp [teardown, hs] at he
  · rw [he]; rfl
  · rcases he with rfl | rfl <;> rfl

theorem preamble_count_caseEv (w : Cfg) {x : Ev} (hx : x.isCaseEv = true) :
    (preamble w).count x = 0 := by
  rw [List.count_eq_zero]
  intro hm
  rw [mem_preamble hm] at hx
  simp at hx

theorem teardown_count_caseEv (w : Cfg) {x : Ev} (hx : x.isCaseEv = true) :
    (teardown w).count x = 0 := by
  rw [List.count_eq_zero]
  intro hm
  rw [mem_teardown hm] at hx
  simp at hx

theorem count_append3 (a b c : List Ev) (x : Ev) :
    ((a ++ b) ++ c).count x = a.count x + b.count x + c.count x := by
  rw [List.count_append, List.count_append]

theorem count_append4 (a b c d : List Ev) (x : Ev) :
    (((a ++ b) ++ c) ++ d).count x = a.count x + b.count x + c.count x + d.count x := by
  rw [List.count_append, List.count_append, List.count_append]

theorem closesBody_of {c : CaseSpec} (h1 : c.assertB = AssertB.returns)
    (h2 : c.sendRes.respNonNil = true) : closesBody c = true := by
  unfold closesBody
  rw [h1]
  exact h2

theorem completesB_of_closesBody {c : CaseSpec} (h : closesBody c = true) :
    completesB c = true := by
  obtain ⟨hp, hq, ⟨rn, er⟩, ab⟩ := c
  cases ab <;> simp_all [closesBody, completesB]

theorem caseOutcome_of_nil_returns {c : CaseSpec} (hnil : c.sendRes.respNonNil = false)
    (hret : c.assertB = AssertB.returns) : caseOutcome c = CaseOut.panicked := by
  rw [caseOutcome_eq_panicked_iff]
  unfold completesB
  rw [hret]
  exact hnil

theorem closesBody_of_nil_returns {c : CaseSpec} (hnil : c.sendRes.respNonNil = false)
    (hret : c.assertB = AssertB.returns) : closesBody c = false := by
  unfold closesBody
  rw [hret]
  exact hnil

theorem condTeardown_count_caseEv (w : Cfg) (p : Bool) {x : Ev}
    (hx : x.isCaseEv = true) :
    (if p then ([] : List Ev) else teardown w).count x = 0 := by
  cases p
  · exact teardown_count_caseEv w hx
  · rfl

theorem condTeardown_count_close (w : Cfg) (p : Bool) (j : Nat) :
    (if p then ([] : List Ev) else teardown w).count (Ev.close j) = 0 :=
  condTeardown_count_caseEv w p rfl

theorem condTeardown_count_assert (w : Cfg) (p : Bool) (j : Nat) :
    (if p then ([] : List Ev) else teardown w).count (Ev.assert j) = 0 :=
  condTeardown_count_caseEv w p rfl

theorem runCases_count_close_lt (wrap : Bool) :
    ∀ (cs : List CaseSpec) (k m : Nat), m < k →
      ((runCases wrap k cs).1).count (Ev.close m) = 0 := by
  intro cs
  induction cs with
  | nil => intro k m hm; simp [runCases]
  | cons c rest ih =>
    intro k m hm
    by_cases hP : (runCase wrap k c).2 = CaseOut.panicked
    · simp only [runCases, if_pos hP]
      rw [runCase_count_close, if_neg (by rintro ⟨h1, h2⟩; omega)]
    · simp only [runCases, if_neg hP]
      rw [List.count_append, runCase_count_close,
        if_neg (by rintro ⟨h1, h2⟩; omega), ih (k + 1) m (by omega)]

theorem bmLoop_count_close_lt (wrap : Bool) (bm : BmSpec) :
    ∀ (n k m : Nat), m < k →
      ((bmLoop wrap bm k n).1).count (Ev.close m) = 0 := by
  intro n
  induction n with
  | zero => intro k m hm; simp [bmLoop]
  | succ n ih =>
    intro k m hm
    by_cases h1 : (runIter wrap k (iterSpec bm k)).2 = CaseOut.done
    · simp only [bmLoop, if_pos h1]
      rw [List.count_append, runIter_count_close,
        if_neg (by rintro ⟨hh1, hh2⟩; omega), ih (k + 1) m (by omega)]
    · by_cases h2 : (runIter wrap k (iterSpec bm k)).2 = CaseOut.aborted
      · simp only [bmLoop, if_neg h1, if_pos h2]
        rw [runIter_count_close, if_neg (by rintro ⟨hh1, hh2⟩; omega)]
      · simp only [bmLoop, if_neg h1, if_neg h2]
        rw [runIter_count_close, if_neg (by rintro ⟨hh1, hh2⟩; omega)]

theorem runCases_count_close_at (wrap : Bool) :
    ∀ (cs : List CaseSpec) (k i : Nat) (c : CaseSpec),
      cs.get? i = some c →
      (∀ j d, j < i → cs.get? j = some d → completesB d = true) →
      ((runCases wrap k cs).1).count (Ev.close (k + i))
        = if closesBody c then 1 else 0 := by
  intro cs
  induction cs with
  | nil => intro k i c hget _; simp [List.get?] at hget
  | cons c0 rest ih =>
    intro k i c hget hprev
    cases i with
    | zero =>
      have hc : c = c0 := by simpa [List.get?] using hget.symm
      subst hc
      by_cases hP : (runCase wrap k c).2 = CaseOut.panicked
      · have hcb : closesBody c = false := by
          have := (caseOutcome_eq_panicked_iff c).1 hP
          obtain ⟨hp, hq, ⟨rn, er⟩, ab⟩ := c
          cases ab <;> simp_all [closesBody, completesB]
        simp only [runCases, if_pos hP]
        rw [runCase_count_close, hcb]
        simp
      · simp only [runCases, if_neg hP]
        rw [List.count_append, runCase_count_close,
          runCases_count_close_lt wrap rest (k + 1) (k + 0) (by omega)]
        by_cases hcb : closesBody c = true
        · rw [if_pos ⟨by omega, hcb⟩, hcb]
          simp
        · rw [if_neg (by rintro ⟨h1, h2⟩; exact hcb h2)]
          simp [Bool.not_eq_true] at hcb
          rw [hcb]
          simp
    | succ i2 =>
      have h0 : completesB c0 = true :=
        hprev 0 c0 (by omega) (by simp [List.get?])
      have hP : ¬((runCase wrap k c0).2 = CaseOut.panicked) := by
        show ¬(caseOutcome c0 = CaseOut.panicked)
        rw [caseOutcome_eq_panicked_iff, h0]
        simp
      simp only [runCases, if_neg hP]
      rw [List.count_append, runCase_count_close,
        if_neg (by rintro ⟨h1, h2⟩; omega)]
      have hrec := ih (k + 1) i2 c (by simpa [List.get?] using hget)
        (fun j d hj hg => hprev (j + 1) d (by omega) (by simpa [List.get?] using hg))
      have harith : k + (i2 + 1) = (k + 1) + i2 := by omega
      rw [harith, hrec]
      simp

theorem bmLoop_count_close_at (wrap : Bool) (bm : BmSpec) :
    ∀ (n k i : Nat), i < n →
      (∀ j, j < i → closesBody (iterSpec bm (k + j)) = true) →
      ((bmLoop wrap bm k n).1).count (Ev.close (k + i))
        = if closesBody (iterSpec bm (k + i)) then 1 else 0 := by
  intro n
  induction n with
  | zero => intro k i hi _; omega
  | succ n ih =>
    intro k i hi hprev
    cases i with
    | zero =>
      simp only [Nat.add_zero]
      by_cases hdone : (runIter wrap k (iterSpec bm k)).2 = CaseOut.done
      · have hcb : closesBody (iterSpec bm k) = true := by
          rw [← caseOutcome_eq_done_iff]
          exact hdone
        simp only [bmLoop, if_pos hdone]
        rw [List.count_append, runIter_count_close,
          bmLoop_count_close_lt wrap bm n (k + 1) k (by omega),
          if_pos ⟨rfl, hcb⟩]
        simp [hcb]
      · have hcb : closesBody (iterSpec bm k) = false := by
          rw [← Bool.not_eq_true, ← caseOutcome_eq_done_iff]
          exact hdone
        by_cases habort : (runIter wrap k (iterSpec bm k)).2 = CaseOut.aborted
        · simp only [bmLoop, if_neg hdone, if_pos habort]
          rw [runIter_count_close, if_neg (by rintro ⟨h1, h2⟩; simp_all)]
          simp [hcb]
        · simp only [bmLoop, if_neg hdone, if_neg habort]
          rw [runIter_count_close, if_neg (by rintro ⟨h1, h2⟩; simp_all)]
          simp [hcb]
    | succ i2 =>
      have h0 : closesBody (iterSpec bm k) = true := by
        have := hprev 0 (by omega)
        simpa using this
      have hdone : (runIter wrap k (iterSpec bm k)).2 = CaseOut.done := by
        show caseOutcome (iterSpec bm k) = CaseOut.done
        rw [caseOutcome_eq_done_iff]
        exact h0
      simp only [bmLoop, if_pos hdone]
      rw [List.count_append, runIter_count_close,
        if_neg (by rintro ⟨h1, h2⟩; omega)]
      have hrec := ih (k + 1) i2 (by omega)
        (fun j hj => by
          have := hprev (j + 1) (by omega)
          have harith2 : k + (j + 1) = (k + 1) + j := by omega
          rwa [harith2] at this)
      have harith : k + (i2 + 1) = (k + 1) + i2 := by omega
      rw [harith, hrec]
      simp

theorem bmBlocks_count_close (wrap : Bool) (bm : BmSpec) :
    ∀ (n k j : Nat), (∀ m, k ≤ m → m < k + n → closesBody (iterSpec bm m) = true) →
      (bmBlocks wrap bm k n).count (Ev.close j) =
        if k ≤ j ∧ j < k + n then 1 else 0 := by
  intro n
  induction n with
  | zero =>
    intro k j _
    rw [bmBlocks]
    simp only [List.count_nil]
    split_ifs <;> omega
  | succ n ih =>
    intro k j h
    rw [bmBlocks]
    rw [List.count_append, runIter_count_close,
      ih (k + 1) j (fun m h1 h2 => h m (by omega) (by omega))]
    have hc : closesBody (iterSpec bm k) = true := h k (Nat.le_refl k) (by omega)
    simp only [hc]
    split_ifs <;> simp_all <;> omega

/-! ## Claims -/

/-- Counterexample to claim C2 as stated: with a start function
configured and a single case whose send yields a nil response and whose
assertion returns normally, the case panics at resp.Body.Close() inside
the t.Run subtest goroutine; the process aborts before the deferred
cancel/shutdown of the blocked Test frame can run, so the shutdown
function is invoked zero times (and the context is never cancelled) —
not exactly once on every exit path as the claim requires. -/
theorem claim_C2_counterexample :
    (⟨true, none, false⟩ : Cfg).hasStart = true
    ∧ (Test ⟨true, none, false⟩
        [⟨false, false, ⟨false, some 1⟩, AssertB.returns⟩]).exit = Exit.panicked
    ∧ (Test ⟨true, none, false⟩
        [⟨false, false, ⟨false, some 1⟩, AssertB.returns⟩]).evs.count Ev.shutdown = 0
    ∧ (Test ⟨true, none, false⟩
        [⟨false, false, ⟨false, some 1⟩, AssertB.returns⟩]).evs.count Ev.cancel = 0 := by
  decide

/-- Claim C2 (amended): on every run that does not panic — normal
completion and Fatalf-aborting assertions included — the deferred
teardown runs as a suffix of the trace: the shutdown function returned
by the start function is invoked exactly once when a start function is
configured and never otherwise, and the context is cancelled exactly
once unconditionally. For the sequential Benchmark this holds on every
exit path including panics, because its iteration body runs on the
benchmark goroutine itself. In Test and BenchmarkParallel, however, a
panicking case or iteration runs on a child goroutine (t.Run subtest /
RunParallel worker), the process aborts, and the deferred
cancel/shutdown never execute: panicked runs contain no shutdown and no
cancel event. -/
theorem claim_C2_lifecycle (w : Cfg) (cs : List CaseSpec) (bm : BmSpec) (bN : Nat)
    (bmp : BmPar) (workers : List Nat) :
    ((runCases w.hasWrapper 0 cs).2 = false →
        (Test w cs).evs.count Ev.shutdown = (if w.hasStart then 1 else 0)
        ∧ (Test w cs).evs.count Ev.cancel = 1
        ∧ ∃ l, (Test w cs).evs = l ++ teardown w)
    ∧ ((runCases w.hasWrapper 0 cs).2 = true →
        (Test w cs).evs.count Ev.shutdown = 0
        ∧ (Test w cs).evs.count Ev.cancel = 0)
    ∧ ((Benchmark w bm bN).evs.count Ev.shutdown = (if w.hasStart then 1 else 0)
      ∧ (Benchmark w bm bN).evs.count Ev.cancel = 1
      ∧ ∃ l, (Benchmark w bm bN).evs = l ++ teardown w)
    ∧ ((runWorkers w.hasWrapper bmp 0 workers).2 = false →
        (BenchmarkParallel w bmp workers).evs.count Ev.shutdown
          = (if w.hasStart then 1 else 0)
        ∧ (BenchmarkParallel w bmp workers).evs.count Ev.cancel = 1
        ∧ ∃ l, (BenchmarkParallel w bmp workers).evs = l ++ teardown w)
    ∧ ((runWorkers w.hasWrapper bmp 0 workers).2 = true →
        (BenchmarkParallel w bmp workers).evs.count Ev.shutdown = 0
        ∧ (BenchmarkParallel w bmp workers).evs.count Ev.cancel = 0) := by
  refine ⟨?_, ?_, ⟨?_, ?_, ⟨_, rfl⟩⟩, ?_, ?_⟩
  · intro h
    have hevs : (Test w cs).evs
        = (preamble w ++ (runCases w.hasWrapper 0 cs).1) ++ teardown w := by
      show (preamble w ++ (runCases w.hasWrapper 0 cs).1)
          ++ (if (runCases w.hasWrapper 0 cs).2 then [] else teardown w) = _
      rw [h]
      rfl
    refine ⟨?_, ?_, ⟨_, hevs⟩⟩
    · rw [hevs, count_append3, preamble_count_shutdown, teardown_count_shutdown,
        count_of_forall_caseEv (x := Ev.shutdown) rfl (fun e he => mem_runCases he)]
      simp
    · rw [hevs, count_append3, preamble_count_cancel, teardown_count_cancel,
        count_of_forall_caseEv (x := Ev.cancel) rfl (fun e he => mem_runCases he)]
  · intro h
    have hevs : (Test w cs).evs
        = (preamble w ++ (runCases w.hasWrapper 0 cs).1) ++ ([] : List Ev) := by
      show (preamble w ++ (runCases w.hasWrapper 0 cs).1)
          ++ (if (runCases w.hasWrapper 0 cs).2 then [] else teardown w) = _
      rw [h]
      rfl
    constructor
    · rw [hevs, count_append3, preamble_count_shutdown,
        count_of_forall_caseEv (x := Ev.shutdown) rfl (fun e he => mem_runCases he)]
      simp
    · rw [hevs, count_append3, preamble_count_cancel,
        count_of_forall_caseEv (x := Ev.cancel) rfl (fun e he => mem_runCases he)]
      simp
  · show (((preamble w ++ [Ev.resetTimer]) ++ (bmLoop w.hasWrapper bm 0 bN).1)
        ++ teardown w).count Ev.shutdown = _
    rw [count_append4, preamble_count_shutdown, teardown_count_shutdown,
      count_of_forall_caseEv (x := Ev.shutdown) rfl (fun e he => mem_bmLoop he)]
    simp
  · show (((preamble w ++ [Ev.resetTimer]) ++ (bmLoop w.hasWrapper bm 0 bN).1)
        ++ teardown w).count Ev.cancel = _
    rw [count_append4, preamble_count_cancel, teardown_count_cancel,
      count_of_forall_caseEv (x := Ev.cancel) rfl (fun e he => mem_bmLoop he)]
    simp
  · intro h
    have hevs : (BenchmarkParallel w bmp workers).evs
        = ((preamble w ++ [Ev.resetTimer]) ++ (runWorkers w.hasWrapper bmp 0 workers).1)
          ++ teardown w := by
      show ((preamble w ++ [Ev.resetTimer]) ++ (runWorkers w.hasWrapper bmp 0 workers).1)
          ++ (if (runWorkers w.hasWrapper bmp 0 workers).2 then [] else teardown w) = _
      rw [h]
      rfl
    refine ⟨?_, ?_, ⟨_, hevs⟩⟩
    · rw [hevs, count_append4, preamble_count_shutdown, teardown_count_shutdown,
        count_of_forall_caseEv (x := Ev.shutdown) rfl (fun e he => mem_runWorkers he)]
      simp
    · rw [hevs, count_append4, preamble_count_cancel, teardown_count_cancel,
        count_of_forall_caseEv (x := Ev.cancel) rfl (fun e he => mem_runWorkers he)]
      simp
  · intro h
    have hevs : (BenchmarkParallel w bmp workers).evs
        = ((preamble w ++ [Ev.resetTimer]) ++ (runWorkers w.hasWrapper bmp 0 workers).1)
          ++ ([] : List Ev) := by
      show ((preamble w ++ [Ev.resetTimer]) ++ (runWorkers w.hasWrapper bmp 0 workers).1)
          ++ (if (runWorkers w.hasWrapper bmp 0 workers).2 then [] else teardown w) = _
      rw [h]
      rfl
    constructor
    · rw [hevs, count_append4, preamble_count_shutdown,
        count_of_forall_caseEv (x := Ev.shutdown) rfl (fun e he => mem_runWorkers he)]
      simp
    · rw [hevs, count_append4, preamble_count_cancel,
        count_of_forall_caseEv (x := Ev.cancel) rfl (fun e he => mem_runWorkers he)]
      simp

/-- Witness for the amended claim C2: a non-panicking Test run with a
start function has exactly one shutdown and one cancel event. -/
theorem claim_C2_lifecycle_witness :
    (Test ⟨true, none, false⟩
        [⟨false, false, ⟨true, none⟩, AssertB.returns⟩]).evs.count Ev.shutdown = 1
    ∧ (Test ⟨true, none, false⟩
        [⟨false, false, ⟨true, none⟩, AssertB.returns⟩]).evs.count Ev.cancel = 1 := by
  have h := (claim_C2_lifecycle ⟨true, none, false⟩
    [⟨false, false, ⟨true, none⟩, AssertB.returns⟩]
    ⟨false, false, fun _ => (⟨true, none⟩, AssertB.returns)⟩ 1
    ⟨false, false, fun _ _ => (⟨true, none⟩, AssertB.returns)⟩ [1]).1 (by decide)
  exact ⟨h.1.trans rfl, h.2.1⟩

/-- Claim C9: Test, Benchmark and BenchmarkParallel never propagate a
failure through their error return value: on every configuration and
every outcome, a normal return always carries a nil error (the readiness
probe result is discarded at the call site and each function ends in a
literal return nil). -/
theorem claim_C9_nil_error (w : Cfg) (cs : List CaseSpec) (bm : BmSpec) (bN : Nat)
    (bmp : BmPar) (workers : List Nat) :
    returnsError (Test w cs).exit = false
    ∧ returnsError (Benchmark w bm bN).exit = false
    ∧ returnsError (BenchmarkParallel w bmp workers).exit = false := by
  refine ⟨?_, ?_, ?_⟩
  · show returnsError (if (runCases w.hasWrapper 0 cs).2 then Exit.panicked
      else Exit.ret none) = false
    split <;> rfl
  · cases h : (bmLoop w.hasWrapper bm 0 bN).2 <;> simp [Benchmark, returnsError, h]
  · show returnsError (if (runWorkers w.hasWrapper bmp 0 workers).2 then Exit.panicked
      else Exit.ret none) = false
    split <;> rfl

/-- Claim C10: whenever the send of a case or iteration yields a nil
response together with an error and the assertion callback returns
normally, the runner reaches resp.Body.Close() on the nil response — a
nil dereference, i.e. a panic — and the body is never closed; this holds
for the shared case body and lifts to panicking runs of Test, Benchmark
and BenchmarkParallel; the nil dereference is avoided only when the
assertion callback itself aborts the case. -/
theorem claim_C10_nil_deref (wrap : Bool) (i : Nat) (c : CaseSpec) (w : Cfg)
    (bm : BmSpec) (bmp : BmPar)
    (hnil : c.sendRes.respNonNil = false) (hret : c.assertB = AssertB.returns) :
    ((runCase wrap i c).2 = CaseOut.panicked
      ∧ ((runCase wrap i c).1).count (Ev.close i) = 0)
    ∧ (runIter wrap i c).2 = CaseOut.panicked
    ∧ (Test w [c]).exit = Exit.panicked
    ∧ (bm.behav 0 = (c.sendRes, c.assertB) → (Benchmark w bm 1).exit = Exit.panicked)
    ∧ (bmp.behav 0 0 = (c.sendRes, c.assertB) →
        (BenchmarkParallel w bmp [1]).exit = Exit.panicked)
    ∧ (∀ c2 : CaseSpec, c2.assertB = AssertB.aborts →
        (runCase wrap i c2).2 = CaseOut.aborted) := by
  have hpan : caseOutcome c = CaseOut.panicked := caseOutcome_of_nil_returns hnil hret
  have hcb : closesBody c = false := closesBody_of_nil_returns hnil hret
  refine ⟨⟨hpan, ?_⟩, hpan, ?_, ?_, ?_, ?_⟩
  · rw [runCase_count_close]
    simp [hcb]
  · have hpc : (runCase w.hasWrapper 0 c).2 = CaseOut.panicked := hpan
    simp [Test, runCases, hpc]
  · intro hbm
    have hiter : iterSpec bm 0 = ⟨bm.hasPre, bm.hasPost, c.sendRes, c.assertB⟩ := by
      simp [iterSpec, hbm]
    have hpi : (runIter w.hasWrapper 0 (iterSpec bm 0)).2 = CaseOut.panicked := by
      show caseOutcome (iterSpec bm 0) = CaseOut.panicked
      rw [hiter]
      exact caseOutcome_of_nil_returns hnil hret
    simp [Benchmark, bmLoop, hpi]
  · intro hbmp
    have hiter : parIterSpec bmp 0 0 = ⟨bmp.hasPre, bmp.hasPost, c.sendRes, c.assertB⟩ := by
      simp [parIterSpec, hbmp]
    have hpi : (runIter w.hasWrapper (Nat.pair 0 0) (parIterSpec bmp 0 0)).2
        = CaseOut.panicked := by
      show caseOutcome (parIterSpec bmp 0 0) = CaseOut.panicked
      rw [hiter]
      exact caseOutcome_of_nil_returns hnil hret
    simp [BenchmarkParallel, runWorkers, workerLoop, hpi]
  · intro c2 h2
    show caseOutcome c2 = CaseOut.aborted
    rw [caseOutcome_eq_aborted_iff]
    exact h2

/-- Witness for C10: at the concrete case with a nil response, an error
value 3 and a normally returning assertion, the body panics and the Test
run exits by panic. -/
theorem claim_C10_nil_deref_witness :
    (runCase false 0 ⟨false, false, ⟨false, some 3⟩, AssertB.returns⟩).2
        = CaseOut.panicked
    ∧ (Test ⟨false, none, false⟩
        [⟨false, false, ⟨false, some 3⟩, AssertB.returns⟩]).exit = Exit.panicked := by
  have h := claim_C10_nil_deref false 0 ⟨false, false, ⟨false, some 3⟩, AssertB.returns⟩
    ⟨false, none, false⟩ ⟨false, false, fun _ => (⟨false, some 3⟩, AssertB.returns)⟩
    ⟨false, false, fun _ _ => (⟨false, some 3⟩, AssertB.returns)⟩ rfl rfl
  exact ⟨h.1.1, h.2.2.1⟩

/-- Counterexample to claim C5 as stated: with a first case whose send
returns a nil response and an error and whose assertion returns
normally, the first case body panics at resp.Body.Close(), so the
assertion of the second case is never invoked — not invoked exactly
once as the claim requires of every case in every sequence. -/
theorem claim_C5_counterexample :
    (Test ⟨false, none, false⟩
        [⟨false, false, ⟨false, some 1⟩, AssertB.returns⟩,
         ⟨false, false, ⟨true, none⟩, AssertB.returns⟩]).evs.count (Ev.assert 1)
      = 0 := by
  decide

/-- Claim C5 (amended): provided every case completes without a panic
(its assertion returns normally on a non-nil response, or aborts the
subtest), Test executes the cases strictly sequentially in input order:
the trace is exactly the preamble, then the per-case blocks in input
order, then the teardown; each per-case block is the optional
PreRequest, the send via the wrapper exactly when one is configured,
the optional PostRequest, the assertion, and the close when the
assertion returned on a non-nil response; each assertion of a listed
case is invoked exactly once and no other assertion occurs. -/
theorem claim_C5_sequential (w : Cfg) (cs : List CaseSpec)
    (h : ∀ c ∈ cs, completesB c = true) :
    (Test w cs).evs = preamble w ++ blockList w.hasWrapper 0 cs ++ teardown w
    ∧ (∀ i c, (runCase w.hasWrapper i c).1
        = (if c.hasPre then [Ev.pre i] else []) ++ [Ev.send i w.hasWrapper]
          ++ (if c.hasPost then [Ev.post i] else []) ++ [Ev.assert i]
          ++ (if closesBody c then [Ev.close i] else []))
    ∧ (∀ j, j < cs.length → (Test w cs).evs.count (Ev.assert j) = 1)
    ∧ (∀ j, cs.length ≤ j → (Test w cs).evs.count (Ev.assert j) = 0) := by
  have hevs : (Test w cs).evs
      = (preamble w ++ blockList w.hasWrapper 0 cs) ++ teardown w := by
    show (preamble w ++ (runCases w.hasWrapper 0 cs).1)
        ++ (if (runCases w.hasWrapper 0 cs).2 then [] else teardown w) = _
    rw [runCases_eq_blockList w.hasWrapper h 0]
    rfl
  refine ⟨hevs, fun i c => rfl, ?_, ?_⟩
  · intro j hj
    rw [hevs, count_append3, preamble_count_assert, teardown_count_assert,
      blockList_count_assert]
    rw [if_pos (by omega)]
  · intro j hj
    rw [hevs, count_append3, preamble_count_assert, teardown_count_assert,
      blockList_count_assert]
    rw [if_neg (by omega)]

/-- Witness for the amended claim C5, at a two-case list whose cases
complete (one closing normally, one aborting). -/
theorem claim_C5_sequential_witness :
    (Test ⟨true, some none, true⟩
        [⟨true, false, ⟨true, none⟩, AssertB.returns⟩,
         ⟨false, true, ⟨true, none⟩, AssertB.aborts⟩]).evs.count (Ev.assert 1) = 1 := by
  have h := claim_C5_sequential ⟨true, some none, true⟩
    [⟨true, false, ⟨true, none⟩, AssertB.returns⟩,
     ⟨false, true, ⟨true, none⟩, AssertB.aborts⟩] (by decide)
  exact h.2.2.1 1 (by decide)

/-- Counterexample to claim C6 as stated: a case whose send yields a
non-nil response but whose assertion callback reports its failure via
Fatalf (aborting the subtest) never reaches resp.Body.Close(): the body
is closed zero times, not exactly once, because the close is not
deferred. -/
theorem claim_C6_counterexample :
    (⟨false, false, ⟨true, none⟩, AssertB.aborts⟩ : CaseSpec).sendRes.respNonNil = true
    ∧ (Test ⟨false, none, false⟩
        [⟨false, false, ⟨true, none⟩, AssertB.aborts⟩]).evs.count (Ev.close 0) = 0 := by
  decide

/-- Claim C6 (amended): after every test case and every benchmark
iteration whose send yields a non-nil response and whose assertion
callback returns normally, the response body is closed exactly once —
whatever error value accompanied the response; when the assertion
aborts or panics, or the response is nil, the close statement is never
reached for that case. Stated per case/iteration: any case all of whose
predecessors completed (so that it executes at all — this includes
mixed runs with aborting cases before it) has its body closed exactly
once when its assertion returns on a non-nil response, and zero times
otherwise; likewise for any benchmark iteration whose predecessors all
completed normally. -/
theorem claim_C6_close_once (w : Cfg) (cs : List CaseSpec) (bm : BmSpec) (bN : Nat) :
    (∀ i c, cs.get? i = some c →
        (∀ j d, j < i → cs.get? j = some d → completesB d = true) →
        (Test w cs).evs.count (Ev.close i) = if closesBody c then 1 else 0)
    ∧ (∀ i, i < bN → (∀ j, j < i → closesBody (iterSpec bm j) = true) →
        (Benchmark w bm bN).evs.count (Ev.close i)
          = if closesBody (iterSpec bm i) then 1 else 0)
    ∧ (∀ c : CaseSpec, closesBody c = true
        ↔ (c.assertB = AssertB.returns ∧ c.sendRes.respNonNil = true))
    ∧ (∀ (wrap : Bool) (i : Nat) (c : CaseSpec), c.assertB ≠ AssertB.returns →
        ((runCase wrap i c).1).count (Ev.close i) = 0) := by
  refine ⟨?_, ?_, ?_, ?_⟩
  · intro i c hget hprev
    have hbody := runCases_count_close_at w.hasWrapper cs 0 i c hget hprev
    rw [Nat.zero_add] at hbody
    show ((preamble w ++ (runCases w.hasWrapper 0 cs).1)
        ++ (if (runCases w.hasWrapper 0 cs).2 then [] else teardown w)).count
        (Ev.close i) = _
    rw [count_append3, preamble_count_close, hbody,
      condTeardown_count_close w (runCases w.hasWrapper 0 cs).2 i]
    omega
  · intro i hi hprev
    have hbody := bmLoop_count_close_at w.hasWrapper bm bN 0 i hi
      (fun j hj => by simpa using hprev j hj)
    rw [Nat.zero_add] at hbody
    show (((preamble w ++ [Ev.resetTimer]) ++ (bmLoop w.hasWrapper bm 0 bN).1)
        ++ teardown w).count (Ev.close i) = _
    rw [count_append4, preamble_count_close, teardown_count_close, hbody]
    have : (([Ev.resetTimer] : List Ev).count (Ev.close i)) = 0 := by simp
    rw [this]
    omega
  · intro c
    obtain ⟨hp, hq, ⟨rn, er⟩, ab⟩ := c
    cases ab <;> cases rn <;> simp [closesBody]
  · intro wrap i c hc
    rw [runCase_count_close]
    have : closesBody c = false := by
      obtain ⟨hp, hq, ⟨rn, er⟩, ab⟩ := c
      cases ab <;> simp_all [closesBody]
    simp [this]

/-- Witness for the amended claim C6 at a mixed Test run — an aborting
first case (body not closed) followed by a completing second case (body
closed exactly once) — and at the second iteration of a completing
benchmark. -/
theorem claim_C6_close_once_witness :
    (Test ⟨false, none, false⟩
        [⟨false, false, ⟨true, none⟩, AssertB.aborts⟩,
         ⟨false, false, ⟨true, some 2⟩, AssertB.returns⟩]).evs.count (Ev.close 0) = 0
    ∧ (Test ⟨false, none, false⟩
        [⟨false, false, ⟨true, none⟩, AssertB.aborts⟩,
         ⟨false, false, ⟨true, some 2⟩, AssertB.returns⟩]).evs.count (Ev.close 1) = 1
    ∧ (Benchmark ⟨false, none, false⟩
        ⟨false, false, fun _ => (⟨true, none⟩, AssertB.returns)⟩ 2).evs.count
        (Ev.close 1) = 1 := by
  have h := claim_C6_close_once ⟨false, none, false⟩
    [⟨false, false, ⟨true, none⟩, AssertB.aborts⟩,
     ⟨false, false, ⟨true, some 2⟩, AssertB.returns⟩]
    ⟨false, false, fun _ => (⟨true, none⟩, AssertB.returns)⟩ 2
  refine ⟨?_, ?_, ?_⟩
  · have h0 := h.1 0 ⟨false, false, ⟨true, none⟩, AssertB.aborts⟩ (by decide)
      (fun j d hj hg => by omega)
    rw [h0]
    rfl
  · have h1 := h.1 1 ⟨false, false, ⟨true, some 2⟩, AssertB.returns⟩ (by decide)
      (fun j d hj hg => by
        interval_cases j
        · simp [List.get?] at hg
          rw [← hg]
          rfl)
    rw [h1]
    rfl
  · have h2 := h.2.1 1 (by decide) (fun j hj => by
      interval_cases j
      · rfl)
    rw [h2]
    rfl

/-- Counterexample to claim C7 as stated: the claim says the Benchmark
loop is optionally capped by a caller-supplied maximum iteration count,
but the Benchmark case type of the current code (wisent.go lines 33-38)
has no cap field at all: at target count 3, the code performs 3 factory
invocations for every benchmark case, whereas the spec-modelled capped
count with cap 1 would be 1. -/
theorem claim_C7_counterexample :
    countReqF (Benchmark ⟨false, none, false⟩
        ⟨false, false, fun _ => (⟨true, none⟩, AssertB.returns)⟩ 3).evs = 3
    ∧ benchmarkIterCountSpec 3 (some 1) = 1 := by
  constructor
  · decide
  · rfl

/-- Claim C7 (amended): Benchmark, after the start/probe preamble,
resets the timing measurement and runs exactly one iteration per
framework-target iteration — exactly bN iterations, with no
caller-supplied cap available in the Benchmark case; each iteration
invokes the request-descriptor factory exactly once, and the runner
itself performs exactly one send per iteration (no retry — retry can
come only from a configured RequestWrapper, reflected in the send event
of each iteration). -/
theorem claim_C7_benchmark_loop (w : Cfg) (bm : BmSpec) (bN : Nat)
    (h : ∀ j, j < bN → closesBody (iterSpec bm j) = true) :
    (Benchmark w bm bN).evs
      = (preamble w ++ [Ev.resetTimer]) ++ bmBlocks w.hasWrapper bm 0 bN ++ teardown w
    ∧ (∀ j, j < bN → (Benchmark w bm bN).evs.count (Ev.reqF j) = 1)
    ∧ (∀ j, bN ≤ j → (Benchmark w bm bN).evs.count (Ev.reqF j) = 0)
    ∧ (∀ j b, (Benchmark w bm bN).evs.count (Ev.send j b)
        = if j < bN ∧ b = w.hasWrapper then 1 else 0) := by
  have hevs : (Benchmark w bm bN).evs
      = ((preamble w ++ [Ev.resetTimer]) ++ bmBlocks w.hasWrapper bm 0 bN)
          ++ teardown w := by
    show ((preamble w ++ [Ev.resetTimer]) ++ (bmLoop w.hasWrapper bm 0 bN).1)
        ++ teardown w = _
    rw [bmLoop_eq_bmBlocks w.hasWrapper bm bN 0 (fun m h1 h2 => h m (by omega))]
  refine ⟨hevs, ?_, ?_, ?_⟩
  · intro j hj
    rw [hevs, count_append4, bmBlocks_count_reqF,
      preamble_count_caseEv w (x := Ev.reqF j) rfl,
      teardown_count_caseEv w (x := Ev.reqF j) rfl]
    rw [if_pos (by omega)]
    simp
  · intro j hj
    rw [hevs, count_append4, bmBlocks_count_reqF,
      preamble_count_caseEv w (x := Ev.reqF j) rfl,
      teardown_count_caseEv w (x := Ev.reqF j) rfl]
    rw [if_neg (by omega)]
    simp
  · intro j b
    rw [hevs, count_append4, bmBlocks_count_send,
      preamble_count_caseEv w (x := Ev.send j b) rfl,
      teardown_count_caseEv w (x := Ev.send j b) rfl]
    have : (([Ev.resetTimer] : List Ev).count (Ev.send j b)) = 0 := by simp
    rw [this]
    split_ifs <;> simp_all

/-- Witness for the amended claim C7 at a completing two-iteration
benchmark. -/
theorem claim_C7_benchmark_loop_witness :
    (Benchmark ⟨true, none, false⟩
        ⟨true, true, fun _ => (⟨true, none⟩, AssertB.returns)⟩ 2).evs.count
        (Ev.reqF 1) = 1 := by
  have h := claim_C7_benchmark_loop ⟨true, none, false⟩
    ⟨true, true, fun _ => (⟨true, none⟩, AssertB.returns)⟩ 2
    (fun j hj => rfl)
  exact h.2.1 1 (by decide)

theorem preamble_probe (w : Cfg) {r : Option Nat} (hp : w.probe = some r) :
    preamble w = (if w.hasStart then [Ev.start] else []) ++ [Ev.probe r] := by
  rw [preamble, hp]

theorem assert_mem_tail {S tail : List Ev} (hS : S = [] ∨ S = [Ev.start])
    {r : Option Nat} (j : Nat) (hj : Ev.assert j ∈ S ++ Ev.probe r :: tail) :
    Ev.assert j ∈ tail := by
  rcases List.mem_append.1 hj with h | h
  · rcases hS with rfl | rfl
    · exact absurd h (List.not_mem_nil _)
    · rw [List.mem_singleton] at h
      exact absurd h (by simp)
  · rcases List.mem_cons.1 h with h2 | h2
    · exact absurd h2 (by simp)
    · exact h2

/-- Counterexample to claim C1 as stated: with a readiness probe
configured that fails (returns the error 7), Test still executes the
test case (its assertion runs exactly once) and still returns a nil
error — the probe failure is neither fatal to the run nor surfaced to
the caller. -/
theorem claim_C1_counterexample :
    (Test ⟨false, some (some 7), false⟩
        [⟨false, false, ⟨true, none⟩, AssertB.returns⟩]).exit = Exit.ret none
    ∧ (Test ⟨false, some (some 7), false⟩
        [⟨false, false, ⟨true, none⟩, AssertB.returns⟩]).evs.count (Ev.assert 0)
        = 1 := by
  decide

/-- Claim C1 (amended): when a readiness prober is configured it is
invoked exactly once, before any case or iteration executes (every
assertion event lies strictly after the probe event in the trace of
Test, Benchmark and BenchmarkParallel), but its result is discarded at
the call site: the exit status — and, for Test, every assertion count —
is the same as if no probe were configured, whatever error the probe
returns; no probe failure is surfaced to the caller and cases and
iterations run regardless. -/
theorem claim_C1_probe_not_fatal (w : Cfg) (cs : List CaseSpec) (bm : BmSpec)
    (bN : Nat) (bmp : BmPar) (workers : List Nat) (r : Option Nat)
    (hp : w.probe = some r) :
    (∃ tail, (Test w cs).evs
        = (if w.hasStart then [Ev.start] else []) ++ Ev.probe r :: tail
      ∧ ∀ j, Ev.assert j ∈ (Test w cs).evs → Ev.assert j ∈ tail)
    ∧ (Test w cs).exit = (Test { w with probe := none } cs).exit
    ∧ (∀ j, (Test w cs).evs.count (Ev.assert j)
        = (Test { w with probe := none } cs).evs.count (Ev.assert j))
    ∧ (∃ tail, (Benchmark w bm bN).evs
        = (if w.hasStart then [Ev.start] else []) ++ Ev.probe r :: tail
      ∧ ∀ j, Ev.assert j ∈ (Benchmark w bm bN).evs → Ev.assert j ∈ tail)
    ∧ (Benchmark w bm bN).exit = (Benchmark { w with probe := none } bm bN).exit
    ∧ (∃ tail, (BenchmarkParallel w bmp workers).evs
        = (if w.hasStart then [Ev.start] else []) ++ Ev.probe r :: tail
      ∧ ∀ j, Ev.assert j ∈ (BenchmarkParallel w bmp workers).evs → Ev.assert j ∈ tail)
    ∧ (BenchmarkParallel w bmp workers).exit
        = (BenchmarkParallel { w with probe := none } bmp workers).exit := by
  have hS : (if w.hasStart then [Ev.start] else []) = ([] : List Ev)
      ∨ (if w.hasStart then [Ev.start] else []) = [Ev.start] := by
    cases w.hasStart <;> simp
  have e1 : (Test w cs).evs
      = (if w.hasStart then [Ev.start] else [])
        ++ Ev.probe r :: ((runCases w.hasWrapper 0 cs).1
            ++ (if (runCases w.hasWrapper 0 cs).2 then [] else teardown w)) := by
    show (preamble w ++ (runCases w.hasWrapper 0 cs).1)
        ++ (if (runCases w.hasWrapper 0 cs).2 then [] else teardown w) = _
    rw [preamble_probe w hp]
    simp [List.append_assoc]
  have e2 : (Benchmark w bm bN).evs
      = (if w.hasStart then [Ev.start] else [])
        ++ Ev.probe r
          :: (Ev.resetTimer :: ((bmLoop w.hasWrapper bm 0 bN).1 ++ teardown w)) := by
    show ((preamble w ++ [Ev.resetTimer]) ++ (bmLoop w.hasWrapper bm 0 bN).1)
        ++ teardown w = _
    rw [preamble_probe w hp]
    simp [List.append_assoc]
  have e3 : (BenchmarkParallel w bmp workers).evs
      = (if w.hasStart then [Ev.start] else [])
        ++ Ev.probe r
          :: (Ev.resetTimer
              :: ((runWorkers w.hasWrapper bmp 0 workers).1
                ++ (if (runWorkers w.hasWrapper bmp 0 workers).2 then []
                    else teardown w))) := by
    show ((preamble w ++ [Ev.resetTimer]) ++ (runWorkers w.hasWrapper bmp 0 workers).1)
        ++ (if (runWorkers w.hasWrapper bmp 0 workers).2 then [] else teardown w) = _
    rw [preamble_probe w hp]
    simp [List.append_assoc]
  refine ⟨⟨_, e1, ?_⟩, rfl, ?_, ⟨_, e2, ?_⟩, rfl, ⟨_, e3, ?_⟩, rfl⟩
  · intro j hj
    rw [e1] at hj
    exact assert_mem_tail hS j hj
  · intro j
    have l1 : (Test w cs).evs.count (Ev.assert j)
        = ((runCases w.hasWrapper 0 cs).1).count (Ev.assert j) := by
      show ((preamble w ++ (runCases w.hasWrapper 0 cs).1)
          ++ (if (runCases w.hasWrapper 0 cs).2 then [] else teardown w)).count _ = _
      rw [count_append3, preamble_count_assert,
        condTeardown_count_assert w (runCases w.hasWrapper 0 cs).2 j]
      omega
    have l2 : (Test { w with probe := none } cs).evs.count (Ev.assert j)
        = ((runCases w.hasWrapper 0 cs).1).count (Ev.assert j) := by
      show ((preamble { w with probe := none }
          ++ (runCases w.hasWrapper 0 cs).1)
          ++ (if (runCases w.hasWrapper 0 cs).2 then []
              else teardown { w with probe := none })).count _ = _
      rw [count_append3, preamble_count_assert,
        condTeardown_count_assert { w with probe := none }
          (runCases w.hasWrapper 0 cs).2 j]
      omega
    rw [l1, l2]
  · intro j hj
    rw [e2] at hj
    exact assert_mem_tail hS j hj
  · intro j hj
    rw [e3] at hj
    exact assert_mem_tail hS j hj

/-- Witness for the amended claim C1 at a failing probe (error 9), a
start function, one test case, one benchmark iteration and one
worker. -/
theorem claim_C1_probe_not_fatal_witness :
    (Test ⟨true, some (some 9), false⟩
        [⟨false, false, ⟨true, none⟩, AssertB.returns⟩]).exit
      = (Test ⟨true, none, false⟩
        [⟨false, false, ⟨true, none⟩, AssertB.returns⟩]).exit := by
  have h := claim_C1_probe_not_fatal ⟨true, some (some 9), false⟩
    [⟨false, false, ⟨true, none⟩, AssertB.returns⟩]
    ⟨false, false, fun _ => (⟨true, none⟩, AssertB.returns)⟩ 1
    ⟨false, false, fun _ _ => (⟨true, none⟩, AssertB.returns)⟩ [1] (some 9) rfl
  exact h.2.1

/-- Claim C3: SimpleRetry ignores its maxAttempts parameter (the result
is the same for any two values of it — the loop bound is the literal 5);
with failures on the first k attempts and a success on attempt k (k <
5) it returns that response immediately with a nil error after sleeping
exactly 0, baseSleep, ..., (k-1) * baseSleep — a total of baseSleep
times (0 + 1 + ... + (k-1)); and when all 5 attempts fail it returns a
nil response with the error of the last attempt unchanged. -/
theorem claim_C3_simple_retry (maxAttempts maxA2 baseSleep : Nat)
    (doSend : Nat → Except Nat Nat) :
    SimpleRetry maxAttempts baseSleep doSend = SimpleRetry maxA2 baseSleep doSend
    ∧ (∀ (errAt : Nat → Nat) (k r : Nat), k < 5 →
        (∀ j, j < k → doSend j = Except.error (errAt j)) →
        doSend k = Except.ok r →
        SimpleRetry maxAttempts baseSleep doSend
          = (some r, none, (List.range k).map fun j => j * baseSleep))
    ∧ (∀ errAt : Nat → Nat, (∀ j, j < 5 → doSend j = Except.error (errAt j)) →
        SimpleRetry maxAttempts baseSleep doSend
          = (none, some (errAt 4), (List.range 5).map fun j => j * baseSleep))
    ∧ (∀ k : Nat, ((List.range k).map fun j => j * baseSleep).sum
        = baseSleep * (List.range k).sum) := by
  refine ⟨rfl, ?_, ?_, ?_⟩
  · intro errAt k r hk hfail hok
    interval_cases k
    · simp [SimpleRetry, simpleRetryAux, hok]
    · have h0 := hfail 0 (by omega)
      simp [SimpleRetry, simpleRetryAux, h0, hok, List.range_succ]
    · have h0 := hfail 0 (by omega)
      have h1 := hfail 1 (by omega)
      simp [SimpleRetry, simpleRetryAux, h0, h1, hok, List.range_succ]
    · have h0 := hfail 0 (by omega)
      have h1 := hfail 1 (by omega)
      have h2 := hfail 2 (by omega)
      simp [SimpleRetry, simpleRetryAux, h0, h1, h2, hok, List.range_succ]
    · have h0 := hfail 0 (by omega)
      have h1 := hfail 1 (by omega)
      have h2 := hfail 2 (by omega)
      have h3 := hfail 3 (by omega)
      simp [SimpleRetry, simpleRetryAux, h0, h1, h2, h3, hok, List.range_succ]
  · intro errAt hall
    have h0 := hall 0 (by omega)
    have h1 := hall 1 (by omega)
    have h2 := hall 2 (by omega)
    have h3 := hall 3 (by omega)
    have h4 := hall 4 (by omega)
    simp [SimpleRetry, simpleRetryAux, h0, h1, h2, h3, h4, List.range_succ]
  · intro k
    induction k with
    | zero => simp
    | succ n ih =>
      simp [List.range_succ, ih]
      ring

/-- Witness for claim C3: two failures at attempts 0 and 1 with errors
10 and 11, then a success with response 42 on attempt 2, under
maxAttempts = 2 (ignored) and baseSleep = 7. -/
theorem claim_C3_simple_retry_witness :
    SimpleRetry 2 7
        (fun j => if j < 2 then Except.error (10 + j) else Except.ok 42)
      = (some 42, none, [0, 7]) := by
  have h := (claim_C3_simple_retry 2 3 7
    (fun j => if j < 2 then Except.error (10 + j) else Except.ok 42)).2.1
    (fun j => 10 + j) 2 42 (by omega) (fun j hj => by
      simp only []
      rw [if_pos hj]) (by simp)
  rw [h]
  decide

theorem probeLoop_success {w : ProbeWorld} {timeout slp : Nat} :
    ∀ {fuel n : Nat}, (probeLoop w timeout slp fuel n).2 = some none →
      ∃ k, w.attempt k = AttemptRes.status 200 := by
  intro fuel
  induction fuel with
  | zero => intro n h; simp [probeLoop] at h
  | succ fuel ih =>
    intro n h
    rcases ha : w.attempt n with e | e | c
    · simp [probeLoop, ha] at h
    · by_cases hc : w.cancelled n
      · simp [probeLoop, ha, hc] at h
      · by_cases ht : timeout ≤ w.elapsed n
        · simp [probeLoop, ha, hc, ht] at h
        · simp only [probeLoop, ha, hc, ht] at h
          simp at h
          exact ih h
    · by_cases h200 : c = 200
      · exact ⟨n, by rw [ha, h200]⟩
      · by_cases hc : w.cancelled n
        · simp [probeLoop, ha, h200, hc] at h
        · by_cases ht : timeout ≤ w.elapsed n
          · simp [probeLoop, ha, h200, hc, ht] at h
          · simp only [probeLoop, ha, h200, hc, ht] at h
            simp at h
            exact ih h

theorem probeLoop_error {w : ProbeWorld} {timeout slp : Nat} :
    ∀ {fuel n : Nat} {e : ProbeErr},
      (probeLoop w timeout slp fuel n).2 = some (some e) →
        (∃ k x, w.attempt k = AttemptRes.reqErr x ∧ e = ProbeErr.creatingRequest x)
        ∨ (∃ k, w.cancelled k = true ∧ e = ProbeErr.ctxCancelled)
        ∨ (∃ k, timeout ≤ w.elapsed k ∧ e = ProbeErr.healthCheckTimeout) := by
  intro fuel
  induction fuel with
  | zero => intro n e h; simp [probeLoop] at h
  | succ fuel ih =>
    intro n e h
    rcases ha : w.attempt n with x | x | c
    · simp [probeLoop, ha] at h
      exact Or.inl ⟨n, x, ha, h.symm⟩
    · by_cases hc : w.cancelled n
      · simp [probeLoop, ha, hc] at h
        exact Or.inr (Or.inl ⟨n, hc, h.symm⟩)
      · by_cases ht : timeout ≤ w.elapsed n
        · simp [probeLoop, ha, hc, ht] at h
          exact Or.inr (Or.inr ⟨n, ht, h.symm⟩)
        · simp only [probeLoop, ha, hc, ht] at h
          simp at h
          exact ih h
    · by_cases h200 : c = 200
      · simp [probeLoop, ha, h200] at h
      · by_cases hc : w.cancelled n
        · simp [probeLoop, ha, h200, hc] at h
          exact Or.inr (Or.inl ⟨n, hc, h.symm⟩)
        · by_cases ht : timeout ≤ w.elapsed n
          · simp [probeLoop, ha, h200, hc, ht] at h
            exact Or.inr (Or.inr ⟨n, ht, h.symm⟩)
          · simp only [probeLoop, ha, h200, hc, ht] at h
            simp at h
            exact ih h

theorem probeLoop_running {w : ProbeWorld} {timeout slp : Nat}
    (hs : ∀ k, w.attempt k = AttemptRes.status 503)
    (hc : ∀ k, w.cancelled k = false)
    (he : ∀ k, w.elapsed k < timeout) :
    ∀ fuel n, (probeLoop w timeout slp fuel n).2 = none := by
  intro fuel
  induction fuel with
  | zero => intro n; rfl
  | succ fuel ih =>
    intro n
    simp only [probeLoop, hs n, hc n, Nat.not_le.2 (he n)]
    simp
    exact ih (n + 1)

/-- Claim C4: the readiness probe succeeds only when a 200 response is
observed; every failure is a request-construction error, the context
error after cancellation, or the timeout error once the elapsed time
reaches the configured timeout — a non-200 status never fails the
probe; on a send error it checks cancellation first (even when the
timeout has also been reached), then the timeout, and otherwise sleeps
and retries with a fresh request; on every response the body is closed
before the status is compared; a non-200 response is retried after the
same cancellation and timeout checks; and there is no maximum attempt
count: with a target stuck on 503, no cancellation and elapsed time
below the timeout, the loop is still running after any number of
iterations. -/
theorem claim_C4_readiness_probe (w : ProbeWorld) (timeout slp fuel n : Nat) :
    ((probeLoop w timeout slp fuel n).2 = some none →
        ∃ k, w.attempt k = AttemptRes.status 200)
    ∧ (∀ e, (probeLoop w timeout slp fuel n).2 = some (some e) →
        (∃ k x, w.attempt k = AttemptRes.reqErr x ∧ e = ProbeErr.creatingRequest x)
        ∨ (∃ k, w.cancelled k = true ∧ e = ProbeErr.ctxCancelled)
        ∨ (∃ k, timeout ≤ w.elapsed k ∧ e = ProbeErr.healthCheckTimeout))
    ∧ (∀ x, w.attempt n = AttemptRes.sendErr x → w.cancelled n = true →
        (probeLoop w timeout slp (fuel + 1) n).2 = some (some ProbeErr.ctxCancelled))
    ∧ (∀ x, w.attempt n = AttemptRes.sendErr x → w.cancelled n = false →
        timeout ≤ w.elapsed n →
        (probeLoop w timeout slp (fuel + 1) n).2
          = some (some ProbeErr.healthCheckTimeout))
    ∧ (∀ x, w.attempt n = AttemptRes.sendErr x → w.cancelled n = false →
        w.elapsed n < timeout →
        probeLoop w timeout slp (fuel + 1) n
          = (ProbeEv.mkReq n :: ProbeEv.doSend n :: ProbeEv.slept n ::
              (probeLoop w timeout slp fuel (n + 1)).1,
             (probeLoop w timeout slp fuel (n + 1)).2))
    ∧ (∀ c, w.attempt n = AttemptRes.status c → c ≠ 200 → w.cancelled n = false →
        w.elapsed n < timeout →
        probeLoop w timeout slp (fuel + 1) n
          = (ProbeEv.mkReq n :: ProbeEv.doSend n :: ProbeEv.closeBody n ::
              ProbeEv.checkStatus n :: ProbeEv.slept n ::
              (probeLoop w timeout slp fuel (n + 1)).1,
             (probeLoop w timeout slp fuel (n + 1)).2))
    ∧ (∀ c, w.attempt n = AttemptRes.status c →
        ∃ rest, (probeLoop w timeout slp (fuel + 1) n).1
          = ProbeEv.mkReq n :: ProbeEv.doSend n :: ProbeEv.closeBody n ::
              ProbeEv.checkStatus n :: rest)
    ∧ (w.attempt n = AttemptRes.status 200 →
        (probeLoop w timeout slp (fuel + 1) n).2 = some none)
    ∧ ((∀ k, w.attempt k = AttemptRes.status 503) → (∀ k, w.cancelled k = false) →
        (∀ k, w.elapsed k < timeout) → (probeLoop w timeout slp fuel n).2 = none) := by
  refine ⟨fun h => probeLoop_success h, fun e h => probeLoop_error h, ?_, ?_, ?_, ?_,
    ?_, ?_, fun hs hc he => probeLoop_running hs hc he fuel n⟩
  · intro x ha hc
    simp [probeLoop, ha, hc]
  · intro x ha hc ht
    simp [probeLoop, ha, hc, ht]
  · intro x ha hc ht
    simp [probeLoop, ha, hc, Nat.not_le.2 ht]
  · intro c ha h200 hc ht
    simp [probeLoop, ha, h200, hc, Nat.not_le.2 ht]
  · intro c ha
    by_cases h200 : c = 200
    · exact ⟨[], by simp [probeLoop, ha, h200]⟩
    · by_cases hc : w.cancelled n
      · exact ⟨[], by simp [probeLoop, ha, h200, hc]⟩
      · by_cases ht : timeout ≤ w.elapsed n
        · exact ⟨[], by simp [probeLoop, ha, h200, hc, ht]⟩
        · exact ⟨ProbeEv.slept n :: (probeLoop w timeout slp fuel (n + 1)).1,
            by simp [probeLoop, ha, h200, hc, ht]⟩
  · intro ha
    simp [probeLoop, ha]

/-- Witness for claim C4: on a send error with the context cancelled,
the probe fails with the context error even though the elapsed time
(99) has also exceeded the timeout (10) — cancellation is checked
first. -/
theorem claim_C4_readiness_probe_witness :
    (probeLoop probeWitnessWorld 10 1 1 0).2 = some (some ProbeErr.ctxCancelled) :=
  (claim_C4_readiness_probe probeWitnessWorld 10 1 0 0).2.2.1 1 rfl rfl

theorem foldl_applyOpt_httpClient {opts : List WisentOpt}
    (h : ∀ o ∈ opts, o.isClientOpt = false) :
    ∀ v : WisentCfg, (opts.foldl applyOpt v).httpClient = v.httpClient := by
  induction opts with
  | nil => intro v; rfl
  | cons o rest ih =>
    intro v
    rw [List.foldl_cons, ih (fun d hd => h d (List.mem_cons_of_mem o hd))]
    rcases o with s | p | c | q | l
    · rfl
    · rfl
    · have := h _ (List.mem_cons_self _ rest)
      simp [WisentOpt.isClientOpt] at this
    · rfl
    · rfl

theorem foldl_applyOpt_logger {opts : List WisentOpt}
    (h : ∀ o ∈ opts, o.isLoggerOpt = false) :
    ∀ v : WisentCfg, (opts.foldl applyOpt v).logger = v.logger := by
  induction opts with
  | nil => intro v; rfl
  | cons o rest ih =>
    intro v
    rw [List.foldl_cons, ih (fun d hd => h d (List.mem_cons_of_mem o hd))]
    rcases o with s | p | c | q | l
    · rfl
    · rfl
    · rfl
    · rfl
    · have := h _ (List.mem_cons_self _ rest)
      simp [WisentOpt.isLoggerOpt] at this

theorem foldl_applyOpt_start {opts : List WisentOpt}
    (h : ∀ o ∈ opts, o.isStartOpt = false) :
    ∀ v : WisentCfg, (opts.foldl applyOpt v).start = v.start := by
  induction opts with
  | nil => intro v; rfl
  | cons o rest ih =>
    intro v
    rw [List.foldl_cons, ih (fun d hd => h d (List.mem_cons_of_mem o hd))]
    rcases o with s | p | c | q | l
    · have := h _ (List.mem_cons_self _ rest)
      simp [WisentOpt.isStartOpt] at this
    · rfl
    · rfl
    · rfl
    · rfl

theorem foldl_applyOpt_probe {opts : List WisentOpt}
    (h : ∀ o ∈ opts, o.isProbeOpt = false) :
    ∀ v : WisentCfg, (opts.foldl applyOpt v).readinessProbe = v.readinessProbe := by
  induction opts with
  | nil => intro v; rfl
  | cons o rest ih =>
    intro v
    rw [List.foldl_cons, ih (fun d hd => h d (List.mem_cons_of_mem o hd))]
    rcases o with s | p | c | q | l
    · rfl
    · have := h _ (List.mem_cons_self _ rest)
      simp [WisentOpt.isProbeOpt] at this
    · rfl
    · rfl
    · rfl

theorem foldl_applyOpt_wrapper {opts : List WisentOpt}
    (h : ∀ o ∈ opts, o.isWrapperOpt = false) :
    ∀ v : WisentCfg, (opts.foldl applyOpt v).requestWrapper = v.requestWrapper := by
  induction opts with
  | nil => intro v; rfl
  | cons o rest ih =>
    intro v
    rw [List.foldl_cons, ih (fun d hd => h d (List.mem_cons_of_mem o hd))]
    rcases o with s | p | c | q | l
    · rfl
    · rfl
    · rfl
    · have := h _ (List.mem_cons_self _ rest)
      simp [WisentOpt.isWrapperOpt] at this
    · rfl

theorem foldl_applyOpt_baseURL (opts : List WisentOpt) :
    ∀ v : WisentCfg, (opts.foldl applyOpt v).baseURL = v.baseURL := by
  induction opts with
  | nil => intro v; rfl
  | cons o rest ih =>
    intro v
    rw [List.foldl_cons, ih]
    rcases o with s | p | c | q | l <;> rfl

/-- Claim C8: after New(baseUrl, options) the configuration invariant
holds: without a client option the default pooled client (3 second
dial, response header and idle connection timeouts, at most 10 idle
connections per host) is installed; without a logger option the
discarding logger is installed; each option sets exactly its one field;
and fields not addressed by any option keep their defaults (nil start
function, nil probe, nil wrapper) while the base URL is the one passed
to New. -/
theorem claim_C8_new_defaults (baseUrl : String) (opts : List WisentOpt) :
    ((∀ o ∈ opts, o.isClientOpt = false) →
        (New baseUrl opts).httpClient = some DefaultHttpClient)
    ∧ ((∀ o ∈ opts, o.isLoggerOpt = false) →
        (New baseUrl opts).logger = some LoggerCfg.discard)
    ∧ DefaultHttpClient.dialTimeoutSec = 3
    ∧ DefaultHttpClient.responseHeaderTimeoutSec = 3
    ∧ DefaultHttpClient.idleConnTimeoutSec = 3
    ∧ DefaultHttpClient.maxIdleConnsPerHost = 10
    ∧ (∀ (v : WisentCfg) (s : Nat),
        applyOpt v (WisentOpt.withStartFunc s) = { v with start := some s })
    ∧ (∀ (v : WisentCfg) (p : Nat),
        applyOpt v (WisentOpt.withReadinessProbe p) = { v with readinessProbe := some p })
    ∧ (∀ (v : WisentCfg) (c : HttpClientCfg),
        applyOpt v (WisentOpt.withHttpClient c) = { v with httpClient := some c })
    ∧ (∀ (v : WisentCfg) (q : Nat),
        applyOpt v (WisentOpt.withRequestWrapper q) = { v with requestWrapper := some q })
    ∧ (∀ (v : WisentCfg) (l : LoggerCfg),
        applyOpt v (WisentOpt.withLogger l) = { v with logger := some l })
    ∧ ((∀ o ∈ opts, o.isStartOpt = false) → (New baseUrl opts).start = none)
    ∧ ((∀ o ∈ opts, o.isProbeOpt = false) → (New baseUrl opts).readinessProbe = none)
    ∧ ((∀ o ∈ opts, o.isWrapperOpt = false) → (New baseUrl opts).requestWrapper = none)
    ∧ (New baseUrl opts).baseURL = baseUrl := by
  refine ⟨?_, ?_, rfl, rfl, rfl, rfl, fun v s => rfl, fun v p => rfl, fun v c => rfl,
    fun v q => rfl, fun v l => rfl, ?_, ?_, ?_, ?_⟩
  · intro h
    have hw : (opts.foldl applyOpt { baseURL := baseUrl }).httpClient = none :=
      foldl_applyOpt_httpClient h _
    simp only [New]
    rw [if_pos hw]
    split <;> rfl
  · intro h
    have hw : (opts.foldl applyOpt { baseURL := baseUrl }).logger = none :=
      foldl_applyOpt_logger h _
    simp only [New]
    split_ifs <;> rfl
  · intro h
    have hw : (opts.foldl applyOpt { baseURL := baseUrl }).start = none :=
      foldl_applyOpt_start h _
    simp only [New]
    split_ifs <;> exact hw
  · intro h
    have hw : (opts.foldl applyOpt { baseURL := baseUrl }).readinessProbe = none :=
      foldl_applyOpt_probe h _
    simp only [New]
    split_ifs <;> exact hw
  · intro h
    have hw : (opts.foldl applyOpt { baseURL := baseUrl }).requestWrapper = none :=
      foldl_applyOpt_wrapper h _
    simp only [New]
    split_ifs <;> exact hw
  · have hw : (opts.foldl applyOpt { baseURL := baseUrl }).baseURL = baseUrl :=
      foldl_applyOpt_baseURL opts _
    simp only [New]
    split_ifs <;> exact hw

/-- Witness for claim C8 at the option list [WithStartFunc 5]: the
default client and discarding logger are installed, the wrapper stays
nil and the base URL is kept. -/
theorem claim_C8_new_defaults_witness :
    (New "http://u" [WisentOpt.withStartFunc 5]).httpClient = some DefaultHttpClient
    ∧ (New "http://u" [WisentOpt.withStartFunc 5]).logger = some LoggerCfg.discard
    ∧ (New "http://u" [WisentOpt.withStartFunc 5]).requestWrapper = none
    ∧ (New "http://u" [WisentOpt.withStartFunc 5]).baseURL = "http://u" := by
  obtain ⟨h1, h2, _, _, _, _, _, _, _, _, _, _, _, h14, h15⟩ :=
    claim_C8_new_defaults "http://u" [WisentOpt.withStartFunc 5]
  exact ⟨h1 (by decide), h2 (by decide), h14 (by decide), h15⟩

end Wisent
